import Mathlib

/-!
Verification development for the JamieCam geometry-kernel boundary layer
(src-tauri/cpp: cam_geometry.cpp, handle_registry_base.h, handle_registry.cpp).

The C++ sources are shallowly embedded:
  * `double` coordinate data is modelled by `ℝ`;
  * `uint32_t` index arithmetic is modelled by `ℕ` with an explicit
    reduction `u32` (mod 2^32) at every point where the source casts to
    or computes in `uint32_t`;
  * the `uint64_t` ID counters are modelled by `ℕ` with an explicit
    reduction mod 2^64 at the increment, as `std::atomic<uint64_t>::fetch_add`
    wraps;
  * `std::unordered_map` is modelled by an association list whose insert
    follows `emplace` semantics (no overwrite of an existing key) and whose
    erase removes the entry with the given key;
  * a C++ exception escaping a lookup (`std::out_of_range` from
    `HandleRegistryBase::get_shape`/`get_mesh`) is modelled by `Option`
    (`none` = the throw);
  * the flat `std::vector<double>` buffers (3 doubles per vertex) are
    modelled structurally as `List Vec3`.  In the source every buffer
    subscript of `append_triangulation` is computed in `uint32_t` —
    `out.vertices[vi * 3 + c]` (cam_geometry.cpp:128-130),
    `i1/i2/i3 = (base + uint32(n-1)) * 3` (lines 148-150), and
    `idx = (base + uint32(vi-1)) * 3` (line 162) — and wraps (with
    defined unsigned semantics) once three times the vertex index
    reaches 2^32.  The structural model places these reads and writes at
    their unwrapped positions, so it is faithful exactly when
    `3 * (pre-state vertex count + appended node count) < 2^32` and the
    triangle node numbers lie within the patch's node count; every
    theorem whose conclusion depends on where these subscripted
    accesses land carries that bound as a hypothesis (theorems about
    the emitted index values alone need only the weaker value-level
    bounds, since `push_back` involves no subscript arithmetic, and
    buffer lengths come from `resize`, which computes in `size_t`);
  * the external OCCT collaborator (file readers, the incremental mesher,
    face iteration) is modelled by explicit environment values handed to
    the boundary operations; the per-face triangulation data extracted by
    OCCT is the `Patch` type (node positions, location transform, 1-based
    triangle node triples, orientation flag);
  * the thread-local `g_last_error` string is modelled as a field of the
    single-thread API state (each boundary operation is a state transformer).
-/

namespace JamieCam

/-- Width reduction applied wherever the C++ source computes in `uint32_t`
(`static_cast<uint32_t>` and `uint32_t` addition in `append_triangulation`). -/
def u32 (n : ℕ) : ℕ := n % 4294967296

/-- Wrap-around modulus of the 64-bit ID counters
(`std::atomic<uint64_t>` in `handle_registry_base.h` and `cam_geometry.cpp`). -/
def U64 : ℕ := 18446744073709551616

/-- Model of a 3-component `double` triple (`gp_Pnt` / `gp_Vec` / one vertex
slot of the flat buffers), with `double` modelled by `ℝ`. -/
structure Vec3 where
  x : ℝ
  y : ℝ
  z : ℝ

/-- Zero vector; the value `resize(..., 0.0)` fills fresh normal slots with. -/
def Vec3.zero : Vec3 := ⟨0, 0, 0⟩

/-- Componentwise sum (the `+=` accumulation in `append_triangulation`). -/
def Vec3.add (a b : Vec3) : Vec3 := ⟨a.x + b.x, a.y + b.y, a.z + b.z⟩

/-- Componentwise difference (the edge vectors `e1`, `e2`). -/
def Vec3.sub (a b : Vec3) : Vec3 := ⟨a.x - b.x, a.y - b.y, a.z - b.z⟩

/-- Cross product (`gp_Vec::Crossed`). -/
def Vec3.cross (a b : Vec3) : Vec3 :=
  ⟨a.y * b.z - a.z * b.y, a.z * b.x - a.x * b.z, a.x * b.y - a.y * b.x⟩

/-- Scalar multiple, used to state accumulated sums. -/
def Vec3.smul (c : ℝ) (v : Vec3) : Vec3 := ⟨c * v.x, c * v.y, c * v.z⟩

/-- Euclidean magnitude, `std::sqrt(nx*nx + ny*ny + nz*nz)` in
`normalize_normals`. -/
noncomputable def Vec3.mag (v : Vec3) : ℝ :=
  Real.sqrt (v.x * v.x + v.y * v.y + v.z * v.z)

/-- Assembled flat mesh buffer (`struct CgMeshData` in cam_geometry.cpp),
with the flat 3-per-vertex `double` vectors modelled structurally. -/
structure CgMeshData where
  vertices : List Vec3
  normals  : List Vec3
  indices  : List ℕ

/-- The freshly constructed empty buffer (`std::make_shared<CgMeshData>()`). -/
def emptyMesh : CgMeshData := ⟨[], [], []⟩

/-- Data of one face triangulation as consumed by `append_triangulation`:
the `Poly_Triangulation` node positions, the `TopLoc_Location` transform
(modelled as the function it applies to a point; the identity location is
the identity function), the 1-based triangle node triples, and the
`TopAbs_REVERSED` orientation flag. -/
structure Patch where
  nodes     : List Vec3
  loc       : Vec3 → Vec3
  triangles : List (ℕ × ℕ × ℕ)
  reversed  : Bool

/-- Read of a vertex slot from the flat vertex buffer
(`out.vertices[idx*3 + c]` for the three components at vertex `idx`).
Out-of-range reads (impossible for 1-based in-range node numbers) default
to the zero vector to keep the model total. -/
def vAt (vs : List Vec3) (i : ℕ) : Vec3 := vs.getD i Vec3.zero

/-- In-place `+=` of `v` into normal slot `i`
(`out.normals[idx + c] += fn.C()`). -/
def addAt (l : List Vec3) (i : ℕ) (v : Vec3) : List Vec3 :=
  l.set i ((l.getD i Vec3.zero).add v)

/-- The `if (face_reversed) std::swap(n1, n2);` step of
`append_triangulation`. -/
def swapIfReversed (rev : Bool) (t : ℕ × ℕ × ℕ) : ℕ × ℕ × ℕ :=
  if rev then (t.2.1, t.1, t.2.2) else t

/-- The three indices pushed for one (already swapped) triangle:
`base + static_cast<uint32_t>(n - 1)` computed in `uint32_t`. -/
def emitTriangle (base : ℕ) (t : ℕ × ℕ × ℕ) : List ℕ :=
  [u32 (base + u32 (t.1 - 1)), u32 (base + u32 (t.2.1 - 1)), u32 (base + u32 (t.2.2 - 1))]

/-- Face normal of one (already swapped) triangle, computed from the
already-world-transformed positions exactly as in the source:
`e1 = v2 - v1`, `e2 = v3 - v1`, `fn = e1 × e2`.  The source reads the
components at `i1/i2/i3 = (base + static_cast<uint32_t>(n-1)) * 3`,
computed in `uint32_t` before widening to `size_t`
(cam_geometry.cpp:148-150); the unwrapped read position `base + (n-1)`
used here coincides with it exactly when `3 * (base + n - 1) + 2 < 2^32`,
the no-wrap bound carried by the theorems that depend on these reads. -/
def triFaceNormal (vs : List Vec3) (base n1 n2 n3 : ℕ) : Vec3 :=
  let v1 := vAt vs (base + (n1 - 1))
  let v2 := vAt vs (base + (n2 - 1))
  let v3 := vAt vs (base + (n3 - 1))
  (v2.sub v1).cross (v3.sub v1)

/-- The three `+=` accumulations of the face normal into the triangle's
vertex normal slots (`for (int vi : {n1, n2, n3})`).  The source computes
the flat slot `idx = (base + static_cast<uint32_t>(vi - 1)) * 3` in
`uint32_t` (cam_geometry.cpp:162), which wraps once `3 * (base + vi - 1)`
reaches 2^32; the unwrapped slot `base + (vi - 1)` used here coincides
with it exactly below that bound, which the theorems that depend on write
placement carry as a hypothesis. -/
def accumulateNormal (norms : List Vec3) (base n1 n2 n3 : ℕ) (fn : Vec3) : List Vec3 :=
  addAt (addAt (addAt norms (base + (n1 - 1)) fn) (base + (n2 - 1)) fn) (base + (n3 - 1)) fn

/-- Body of one iteration of the triangle loop of `append_triangulation`:
swap the first two node numbers when the face is reversed, push the three
offset indices, and accumulate the face normal into the three slots. -/
def triStep (vs : List Vec3) (base : ℕ) (rev : Bool) (out : CgMeshData)
    (t : ℕ × ℕ × ℕ) : CgMeshData :=
  let s := swapIfReversed rev t
  let fn := triFaceNormal vs base s.1 s.2.1 s.2.2
  { vertices := out.vertices
    normals  := accumulateNormal out.normals base s.1 s.2.1 s.2.2 fn
    indices  := out.indices ++ emitTriangle base s }

/-- Embedding of `append_triangulation` (cam_geometry.cpp): record
`base = out.vertices.size() / 3` (cast to `uint32_t`), append the
transformed node positions to the vertex buffer and zero-filled slots to
the normal buffer, then run the triangle loop.  The node copy is modelled
as a pure list append: the source `resize`s (exact, `size_t`) and then
writes each node at `vi * 3 + c` with `vi = base + uint32(i-1)` computed
in `uint32_t` (cam_geometry.cpp:128-130), so the writes fill exactly the
appended block — making this model faithful — precisely when
`3 * (out.vertices.size()/3 + nNodes) < 2^32`; past that bound the
source's subscripts wrap into earlier slots.  Theorems whose conclusions
depend on where the node copy, the normal accumulation, or the
face-normal reads land carry that bound as a hypothesis. -/
def append_triangulation (out : CgMeshData) (p : Patch) : CgMeshData :=
  let base := u32 out.vertices.length
  let world := p.nodes.map p.loc
  let vs := out.vertices ++ world
  let init : CgMeshData :=
    { vertices := vs
      normals  := out.normals ++ List.replicate p.nodes.length Vec3.zero
      indices  := out.indices }
  p.triangles.foldl (triStep vs base p.reversed) init

/-- Embedding of the per-vertex normalization step of `normalize_normals`:
divide by the magnitude when it exceeds `1e-12`, otherwise leave the
accumulated vector unchanged. -/
noncomputable def normalizeVec (v : Vec3) : Vec3 :=
  let len := Real.sqrt (v.x * v.x + v.y * v.y + v.z * v.z)
  if 1e-12 < len then ⟨v.x / len, v.y / len, v.z / len⟩ else v

/-- Embedding of `normalize_normals` (cam_geometry.cpp): normalize the
first `vertices.size() / 3` normal slots (the loop bound in the source),
leaving any further entries untouched. -/
noncomputable def normalize_normals (out : CgMeshData) : CgMeshData :=
  let nVerts := out.vertices.length
  { out with
    normals := (out.normals.take nVerts).map normalizeVec ++ out.normals.drop nVerts }

/-- Body of one iteration of the face loop of `cg_shape_tessellate`: a
face whose `BRep_Tool::Triangulation` is null (`none`) is skipped by
`continue`; otherwise its triangulation is appended. -/
def mergeStep (acc : CgMeshData) (f : Option Patch) : CgMeshData :=
  match f with
  | none => acc
  | some p => append_triangulation acc p

/-- The face loop of `cg_shape_tessellate`: fold `mergeStep` over the
faces starting from the freshly constructed empty buffer. -/
def mergeFaces (faces : List (Option Patch)) : CgMeshData :=
  faces.foldl mergeStep emptyMesh

/-- Lookup in an `std::unordered_map` modelled as an association list
(`find(id)` followed by reading the mapped value). -/
def mapFind {α : Type} (l : List (ℕ × α)) (id : ℕ) : Option α :=
  (l.find? (fun e => e.1 == id)).map (fun e => e.2)

/-- Insertion with `emplace` semantics: a present key is left untouched
(`emplace` does not overwrite). -/
def mapEmplace {α : Type} (l : List (ℕ × α)) (id : ℕ) (x : α) : List (ℕ × α) :=
  if (mapFind l id).isSome then l else (id, x) :: l

/-- Erasure of the entry with the given key (`erase(id)`); erasing an
absent key leaves the map unchanged. -/
def mapErase {α : Type} (l : List (ℕ × α)) (id : ℕ) : List (ℕ × α) :=
  l.filter (fun e => e.1 != id)

/-- State of the template class `HandleRegistryBase<ShapeT, MeshT>`
(handle_registry_base.h): the single shared atomic ID counter and the two
kind-specific maps.  The payload types are opaque parameters, as in the
template. -/
structure HandleRegistryBase (S M : Type) where
  next_id : ℕ
  shapes  : List (ℕ × S)
  meshes  : List (ℕ × M)

/-- The freshly constructed registry: `next_id_(1)`, both maps empty. -/
def HandleRegistryBase.init (S M : Type) : HandleRegistryBase S M := ⟨1, [], []⟩

/-- `store_shape`: issue `next_id_.fetch_add(1)` (which returns the old
counter value and stores the wrapped successor) and emplace the shape. -/
def HandleRegistryBase.store_shape {S M : Type} (st : HandleRegistryBase S M) (x : S) :
    ℕ × HandleRegistryBase S M :=
  let id := st.next_id
  (id, { st with next_id := (st.next_id + 1) % U64, shapes := mapEmplace st.shapes id x })

/-- `store_mesh`: same shared counter, the mesh map. -/
def HandleRegistryBase.store_mesh {S M : Type} (st : HandleRegistryBase S M) (m : M) :
    ℕ × HandleRegistryBase S M :=
  let id := st.next_id
  (id, { st with next_id := (st.next_id + 1) % U64, meshes := mapEmplace st.meshes id m })

/-- `get_shape`: `none` models the `std::out_of_range` throw on an absent
ID (the registry's NotFound signal). -/
def HandleRegistryBase.get_shape {S M : Type} (st : HandleRegistryBase S M) (id : ℕ) :
    Option S :=
  mapFind st.shapes id

/-- `get_mesh`: `none` models the `std::out_of_range` throw. -/
def HandleRegistryBase.get_mesh {S M : Type} (st : HandleRegistryBase S M) (id : ℕ) :
    Option M :=
  mapFind st.meshes id

/-- `free_shape`: erase and report whether an entry was removed
(`shapes_.erase(id) > 0`). -/
def HandleRegistryBase.free_shape {S M : Type} (st : HandleRegistryBase S M) (id : ℕ) :
    HandleRegistryBase S M × Bool :=
  ({ st with shapes := mapErase st.shapes id }, (mapFind st.shapes id).isSome)

/-- `free_mesh`: erase and report whether an entry was removed. -/
def HandleRegistryBase.free_mesh {S M : Type} (st : HandleRegistryBase S M) (id : ℕ) :
    HandleRegistryBase S M × Bool :=
  ({ st with meshes := mapErase st.meshes id }, (mapFind st.meshes id).isSome)

/-- `shape_count` (introspection). -/
def HandleRegistryBase.shape_count {S M : Type} (st : HandleRegistryBase S M) : ℕ :=
  st.shapes.length

/-- `mesh_count` (introspection). -/
def HandleRegistryBase.mesh_count {S M : Type} (st : HandleRegistryBase S M) : ℕ :=
  st.meshes.length

/-- State of the file-local mesh data store of cam_geometry.cpp:
`g_mesh_store` and its own counter `g_mesh_next_id{1}` (a counter separate
from the registry's). -/
structure MeshStoreState where
  store   : List (ℕ × CgMeshData)
  next_id : ℕ

/-- Initial mesh store: empty map, counter at 1. -/
def MeshStoreState.init : MeshStoreState := ⟨[], 1⟩

/-- `mesh_store_insert`: issue `g_mesh_next_id.fetch_add(1)` and emplace. -/
def MeshStoreState.insert (st : MeshStoreState) (d : CgMeshData) : ℕ × MeshStoreState :=
  let id := st.next_id
  (id, ⟨mapEmplace st.store id d, (st.next_id + 1) % U64⟩)

/-- `mesh_store_get`: `nullptr` on an absent ID is modelled by `none`. -/
def MeshStoreState.get (st : MeshStoreState) (id : ℕ) : Option CgMeshData :=
  mapFind st.store id

/-- `mesh_store_erase`: erase and report whether an entry was removed. -/
def MeshStoreState.erase (st : MeshStoreState) (id : ℕ) : MeshStoreState × Bool :=
  (⟨mapErase st.store id, st.next_id⟩, (mapFind st.store id).isSome)

/-- Process state visible to the C API of cam_geometry.cpp: the global
`OcctHandleRegistry` singleton (payload types opaque), the file-local mesh
data store, and the thread-local `g_last_error` string of the calling
thread.  Every boundary operation is a transformer of this state. -/
structure ApiState (S M : Type) where
  registry   : HandleRegistryBase S M
  mesh_store : MeshStoreState
  last_error : String

/-- Process state at start-up: empty registry and store, and the
thread-local error string default-initialized to the empty string. -/
def ApiState.init (S M : Type) : ApiState S M :=
  ⟨HandleRegistryBase.init S M, MeshStoreState.init, ""⟩

/-- `set_last_error`. -/
def setLastError {S M : Type} (msg : String) (st : ApiState S M) : ApiState S M :=
  { st with last_error := msg }

/-- `cg_last_error_message`: read the thread-local string, no state change. -/
def cg_last_error_message {S M : Type} (st : ApiState S M) : String :=
  st.last_error

/-- Outcome of the external STEP reader / healer collaborator for one
`cg_load_step` call: read failure, no transferable roots, a healed shape,
or an exception (the three catch clauses unify the exception kinds; the
message prefix is chosen per clause, and the model keeps one exception
case whose full message is supplied by the environment). -/
inductive StepOutcome (S : Type) where
  | readFail
  | noRoots
  | healed (s : S)
  | exn (msg : String)

/-- Embedding of `cg_load_step`: null-path check first, then the
collaborator outcome; on success the healed shape is stored in the shape
registry (`registry_store_shape` on the global singleton). -/
def cg_load_step {S M : Type} (path : Option String) (env : StepOutcome S)
    (st : ApiState S M) : ℕ × ApiState S M :=
  match path with
  | none => (0, setLastError "cg_load_step: null path" st)
  | some p =>
    match env with
    | StepOutcome.readFail =>
        (0, setLastError ("STEP: failed to read '" ++ p ++ "'") st)
    | StepOutcome.noRoots =>
        (0, setLastError "STEP: no transferable roots found" st)
    | StepOutcome.healed s =>
        let r := st.registry.store_shape s
        (r.1, { st with registry := r.2 })
    | StepOutcome.exn m =>
        (0, setLastError ("STEP exception: " ++ m) st)

/-- Outcome of the external STL reader for one `cg_load_stl` call: a null
triangulation (read failure), a triangulation (identity location, not
reversed), or an exception. -/
inductive StlOutcome where
  | readFail
  | tri (p : Patch)
  | exn (msg : String)

/-- Embedding of `cg_load_stl`: null-path check, then the reader outcome;
on success the triangulation is appended into a fresh buffer with the
identity location and `face_reversed = false`, normalized, and inserted
into the mesh store. -/
noncomputable def cg_load_stl {S M : Type} (path : Option String) (env : StlOutcome)
    (st : ApiState S M) : ℕ × ApiState S M :=
  match path with
  | none => (0, setLastError "cg_load_stl: null path" st)
  | some p =>
    match env with
    | StlOutcome.readFail =>
        (0, setLastError ("STL: failed to read '" ++ p ++ "'") st)
    | StlOutcome.tri t =>
        let data := normalize_normals (append_triangulation emptyMesh t)
        let r := st.mesh_store.insert data
        (r.1, { st with mesh_store := r.2 })
    | StlOutcome.exn m =>
        (0, setLastError ("STL exception: " ++ m) st)

/-- Embedding of `cg_shape_free`: an explicit early return on the null ID,
otherwise `registry_free_shape` (whose boolean result is discarded). -/
def cg_shape_free {S M : Type} (id : ℕ) (st : ApiState S M) : ApiState S M :=
  if id = 0 then st
  else { st with registry := (st.registry.free_shape id).1 }

/-- Embedding of `cg_mesh_free`: early return on the null ID, otherwise
`mesh_store_erase` (result discarded). -/
def cg_mesh_free {S M : Type} (id : ℕ) (st : ApiState S M) : ApiState S M :=
  if id = 0 then st
  else { st with mesh_store := (st.mesh_store.erase id).1 }

/-- The `CgBbox` plain-value result struct. -/
structure CgBbox where
  xmin : ℝ
  ymin : ℝ
  zmin : ℝ
  xmax : ℝ
  ymax : ℝ
  zmax : ℝ

/-- The zero-initialized bbox `CgBbox result{0,0,0,0,0,0}` returned on
every failure path. -/
def zeroBbox : CgBbox := ⟨0, 0, 0, 0, 0, 0⟩

/-- Outcome of the OCCT bounding-box computation for a resolved shape. -/
inductive BboxOutcome where
  | voidBox
  | box (b : CgBbox)
  | exn (msg : String)

/-- Embedding of `cg_shape_bounding_box`: null-handle check, registry
resolution (an absent ID throws `std::out_of_range`, caught and converted),
then the collaborator outcome. -/
def cg_shape_bounding_box {S M : Type} (id : ℕ) (env : BboxOutcome)
    (st : ApiState S M) : CgBbox × ApiState S M :=
  if id = 0 then (zeroBbox, setLastError "cg_shape_bounding_box: null handle" st)
  else
    match st.registry.get_shape id with
    | none => (zeroBbox, setLastError "cg_shape_bounding_box: invalid shape ID" st)
    | some _ =>
      match env with
      | BboxOutcome.voidBox =>
          (zeroBbox, setLastError "cg_shape_bounding_box: empty/void shape" st)
      | BboxOutcome.box b => (b, st)
      | BboxOutcome.exn m => (zeroBbox, setLastError ("BBox exception: " ++ m) st)

/-- Collaborator data for one `cg_shape_tessellate` call: whether
`BRepMesh_IncrementalMesh::IsDone` holds, and the per-face triangulations
produced by the mesher (`none` = `BRep_Tool::Triangulation` returned null
for that face, skipped by `continue`). -/
structure TessEnv where
  mesher_done : Bool
  faces       : List (Option Patch)

/-- Embedding of `cg_shape_tessellate`: null-handle check; registry
resolution; mesher completion check; merge of all face triangulations; the
empty-merge check (`data->indices.empty()`); then normalization and
insertion into the mesh store. -/
noncomputable def cg_shape_tessellate {S M : Type} (id : ℕ) (env : TessEnv)
    (st : ApiState S M) : ℕ × ApiState S M :=
  if id = 0 then (0, setLastError "cg_shape_tessellate: null handle" st)
  else
    match st.registry.get_shape id with
    | none => (0, setLastError "cg_shape_tessellate: invalid shape ID" st)
    | some _ =>
      if env.mesher_done = false then
        (0, setLastError "cg_shape_tessellate: mesher did not complete" st)
      else
        let data := mergeFaces env.faces
        if data.indices.isEmpty then
          (0, setLastError "cg_shape_tessellate: no triangles produced" st)
        else
          let r := st.mesh_store.insert (normalize_normals data)
          (r.1, { st with mesh_store := r.2 })

/-- Embedding of `cg_mesh_vertex_count`: `0` for the null ID or an absent
mesh, otherwise `vertices.size() / 3`; the state (in particular the
thread-local error string) is returned untouched, as the source never
calls `set_last_error` here. -/
def cg_mesh_vertex_count {S M : Type} (id : ℕ) (st : ApiState S M) :
    ℕ × ApiState S M :=
  if id = 0 then (0, st)
  else
    match st.mesh_store.get id with
    | none => (0, st)
    | some m => (m.vertices.length, st)

/-- Embedding of `cg_mesh_triangle_count`: `0` for the null ID or an
absent mesh, otherwise `indices.size() / 3`; never sets the error string. -/
def cg_mesh_triangle_count {S M : Type} (id : ℕ) (st : ApiState S M) :
    ℕ × ApiState S M :=
  if id = 0 then (0, st)
  else
    match st.mesh_store.get id with
    | none => (0, st)
    | some m => (m.indices.length / 3, st)

/-- The `CgError` status enumeration of cam_geometry.h. -/
inductive CgError where
  | CG_OK
  | CG_ERR_FILE_NOT_FOUND
  | CG_ERR_PARSE_FAILED
  | CG_ERR_NULL_HANDLE
  | CG_ERR_INVALID_ARG
  | CG_ERR_OCCT_EXCEPTION
  | CG_ERR_NO_RESULT
deriving DecidableEq

/-- Flattening of a structural vertex/normal buffer back to the flat
3-doubles-per-vertex layout copied by `memcpy`. -/
def flat3 (l : List Vec3) : List ℝ :=
  (l.map (fun v => [v.x, v.y, v.z])).flatten

/-- The effect of `memcpy(dst, src.data(), src.size() * sizeof ...)` on a
caller buffer modelled as a list: the first `src.length` entries are
overwritten, anything beyond is untouched. -/
def memcpyList {α : Type} (dst src : List α) : List α :=
  src ++ dst.drop src.length

/-- Embedding of `cg_mesh_copy_vertices`.  The caller's destination
pointer is `Option` (`none` = NULL); on the null-argument and absent-ID
paths the destination is untouched. -/
def cg_mesh_copy_vertices {S M : Type} (id : ℕ) (dst : Option (List ℝ))
    (st : ApiState S M) : CgError × Option (List ℝ) × ApiState S M :=
  if id = 0 ∨ dst.isNone then
    (CgError.CG_ERR_NULL_HANDLE, dst, setLastError "cg_mesh_copy_vertices: null argument" st)
  else
    match st.mesh_store.get id with
    | none =>
        (CgError.CG_ERR_NULL_HANDLE, dst, setLastError "cg_mesh_copy_vertices: invalid mesh ID" st)
    | some m =>
        (CgError.CG_OK, dst.map (fun b => memcpyList b (flat3 m.vertices)), st)

/-- Embedding of `cg_mesh_copy_normals`. -/
def cg_mesh_copy_normals {S M : Type} (id : ℕ) (dst : Option (List ℝ))
    (st : ApiState S M) : CgError × Option (List ℝ) × ApiState S M :=
  if id = 0 ∨ dst.isNone then
    (CgError.CG_ERR_NULL_HANDLE, dst, setLastError "cg_mesh_copy_normals: null argument" st)
  else
    match st.mesh_store.get id with
    | none =>
        (CgError.CG_ERR_NULL_HANDLE, dst, setLastError "cg_mesh_copy_normals: invalid mesh ID" st)
    | some m =>
        (CgError.CG_OK, dst.map (fun b => memcpyList b (flat3 m.normals)), st)

/-- Embedding of `cg_mesh_copy_indices` (the `uint32_t` index buffer). -/
def cg_mesh_copy_indices {S M : Type} (id : ℕ) (dst : Option (List ℕ))
    (st : ApiState S M) : CgError × Option (List ℕ) × ApiState S M :=
  if id = 0 ∨ dst.isNone then
    (CgError.CG_ERR_NULL_HANDLE, dst, setLastError "cg_mesh_copy_indices: null argument" st)
  else
    match st.mesh_store.get id with
    | none =>
        (CgError.CG_ERR_NULL_HANDLE, dst, setLastError "cg_mesh_copy_indices: invalid mesh ID" st)
    | some m =>
        (CgError.CG_OK, dst.map (fun b => memcpyList b m.indices), st)

/-- Store and free operations on the two ID-issuing stores of the process:
the registry's two kinds (shared counter) and the C-API mesh-buffer store
(its own counter).  Used to reason about every sequence of store/free
operations. -/
inductive StoreOp (S M : Type) where
  | regStoreShape (x : S)
  | regStoreMesh  (m : M)
  | regFreeShape  (id : ℕ)
  | regFreeMesh   (id : ℕ)
  | bufInsert     (d : CgMeshData)
  | bufErase      (id : ℕ)

/-- One step of a store/free trace; returns the issued ID when the
operation is a store. -/
def stepOp {S M : Type} (st : ApiState S M) (op : StoreOp S M) :
    ApiState S M × Option ℕ :=
  match op with
  | StoreOp.regStoreShape x =>
      let r := st.registry.store_shape x
      ({ st with registry := r.2 }, some r.1)
  | StoreOp.regStoreMesh m =>
      let r := st.registry.store_mesh m
      ({ st with registry := r.2 }, some r.1)
  | StoreOp.regFreeShape id =>
      ({ st with registry := (st.registry.free_shape id).1 }, none)
  | StoreOp.regFreeMesh id =>
      ({ st with registry := (st.registry.free_mesh id).1 }, none)
  | StoreOp.bufInsert d =>
      let r := st.mesh_store.insert d
      ({ st with mesh_store := r.2 }, some r.1)
  | StoreOp.bufErase id =>
      ({ st with mesh_store := (st.mesh_store.erase id).1 }, none)

/-- Run a trace of store/free operations. -/
def runOps {S M : Type} (st : ApiState S M) (ops : List (StoreOp S M)) : ApiState S M :=
  ops.foldl (fun s op => (stepOp s op).1) st

/-- The IDs issued by the registry stores of a trace, in order. -/
def issuedReg {S M : Type} (st : ApiState S M) : List (StoreOp S M) → List ℕ
  | [] => []
  | op :: ops =>
    let r := stepOp st op
    match op with
    | StoreOp.regStoreShape _ => r.2.toList ++ issuedReg r.1 ops
    | StoreOp.regStoreMesh _  => r.2.toList ++ issuedReg r.1 ops
    | _ => issuedReg r.1 ops

/-- The IDs issued by the C-API mesh-buffer store of a trace, in order. -/
def issuedBuf {S M : Type} (st : ApiState S M) : List (StoreOp S M) → List ℕ
  | [] => []
  | op :: ops =>
    let r := stepOp st op
    match op with
    | StoreOp.bufInsert _ => r.2.toList ++ issuedBuf r.1 ops
    | _ => issuedBuf r.1 ops

/-- Number of registry store operations in a trace. -/
def regStores {S M : Type} : List (StoreOp S M) → ℕ
  | [] => 0
  | StoreOp.regStoreShape _ :: ops => regStores ops + 1
  | StoreOp.regStoreMesh _ :: ops => regStores ops + 1
  | _ :: ops => regStores ops

/-- Number of mesh-buffer insert operations in a trace. -/
def bufStores {S M : Type} : List (StoreOp S M) → ℕ
  | [] => 0
  | StoreOp.bufInsert _ :: ops => bufStores ops + 1
  | _ :: ops => bufStores ops

/-- Modelled from the spec: the emission rule of §4.3 step 2, in its own
words — swap `n1` and `n2` exactly when `winding-reversed` is true, then
emit `(base+n1-1, base+n2-1, base+n3-1)` in plain arithmetic.  Compared
against the code-level `emitTriangle` chain of `uint32_t` casts. -/
def specEmitTriangle (base : ℕ) (rev : Bool) (t : ℕ × ℕ × ℕ) : List ℕ :=
  if rev then [base + (t.2.1 - 1), base + (t.1 - 1), base + (t.2.2 - 1)]
  else [base + (t.1 - 1), base + (t.2.1 - 1), base + (t.2.2 - 1)]

/-- The mesh-buffer invariant of the spec's data model: equal vertex and
normal counts, and every triangle index referencing a valid vertex. -/
def meshWF (m : CgMeshData) : Prop :=
  m.normals.length = m.vertices.length ∧ ∀ i ∈ m.indices, i < m.vertices.length

/-- Node-position bounds for the triangles of a patch: 1-based node
numbers, each within the patch's node count (`Poly_Triangulation`
guarantees its triangles reference nodes `1..NbNodes()`). -/
def patchNodesOk (p : Patch) : Prop :=
  ∀ t ∈ p.triangles,
    (1 ≤ t.1 ∧ t.1 ≤ p.nodes.length) ∧
    (1 ≤ t.2.1 ∧ t.2.1 ≤ p.nodes.length) ∧
    (1 ≤ t.2.2 ∧ t.2.2 ≤ p.nodes.length)

/-- Total node count contributed by a face list (skipped faces contribute
nothing). -/
def facesNodeSum (faces : List (Option Patch)) : ℕ :=
  (faces.map (fun f => match f with | none => 0 | some p => p.nodes.length)).sum

/-- Number of occurrences of node number `k` in a triangle's node triple;
the accumulation loop `for (int vi : {n1, n2, n3})` adds the face normal
once per occurrence. -/
def occ (k : ℕ) (t : ℕ × ℕ × ℕ) : ℕ :=
  (if t.1 = k then 1 else 0) + (if t.2.1 = k then 1 else 0) + (if t.2.2 = k then 1 else 0)

/-- Concrete patch with one node and no triangles (an OCCT triangulation
with `NbNodes() = 1`, `NbTriangles() = 0`). -/
def zeroTriPatch : Patch := ⟨[Vec3.zero], fun v => v, [], false⟩

/-- Concrete patch whose two non-degenerate triangles carry exactly
opposite windings, so their face normals cancel at every shared vertex. -/
def cancelPatch : Patch :=
  ⟨[⟨0, 0, 0⟩, ⟨1, 0, 0⟩, ⟨0, 1, 0⟩], fun v => v, [(1, 2, 3), (2, 1, 3)], false⟩

/-- Concrete patch A of the spec's two-patch winding example: 3 vertices,
1 triangle, identity transform, not reversed. -/
def patchA : Patch :=
  ⟨[⟨0, 0, 0⟩, ⟨1, 0, 0⟩, ⟨0, 1, 0⟩], fun v => v, [(1, 2, 3)], false⟩

/-- Concrete patch B of the spec's two-patch winding example: the same
triangle translated by a world transform, winding-reversed. -/
def patchB : Patch :=
  ⟨[⟨0, 0, 0⟩, ⟨1, 0, 0⟩, ⟨0, 1, 0⟩], fun v => ⟨v.x, v.y, v.z + 1⟩, [(1, 2, 3)], true⟩

/-- Concrete patch with one degenerate (repeated-node) triangle: its face
normal is the zero vector, touching only node 1. -/
def degeneratePatch : Patch :=
  ⟨[⟨0, 0, 0⟩, ⟨1, 0, 0⟩, ⟨2, 0, 0⟩], fun v => v, [(1, 1, 1)], false⟩

/-- Sum of a list of vectors (used to state the accumulated vertex-normal
sum). -/
def vecSum (l : List Vec3) : Vec3 := l.foldr Vec3.add Vec3.zero

/-- The total face-normal contribution accumulated by
`append_triangulation out p` into the normal slot of the patch's node `k`:
for each triangle, its (post-swap) face normal times the number of
occurrences of `k` in its (post-swap) node triple. -/
def patchContribution (out : CgMeshData) (p : Patch) (k : ℕ) : Vec3 :=
  let base := u32 out.vertices.length
  let vs := out.vertices ++ p.nodes.map p.loc
  vecSum (p.triangles.map (fun t =>
    let s := swapIfReversed p.reversed t
    Vec3.smul ((occ k s : ℕ) : ℝ) (triFaceNormal vs base s.1 s.2.1 s.2.2)))

/-- Concrete one-vertex, one-degenerate-triangle mesh buffer used as a
stored mesh in witnesses. -/
def demoMesh : CgMeshData := ⟨[⟨1, 2, 3⟩], [⟨0, 0, 1⟩], [0, 0, 0]⟩

/-- Concrete process state holding `demoMesh` under ID 1 in the C-API
mesh store. -/
def demoState : ApiState Unit Unit :=
  ⟨HandleRegistryBase.init Unit Unit, ⟨[(1, demoMesh)], 2⟩, ""⟩

theorem u32_eq_of_lt {n : ℕ} (h : n < 4294967296) : u32 n = n :=
  Nat.mod_eq_of_lt h

theorem addAt_length (l : List Vec3) (i : ℕ) (v : Vec3) :
    (addAt l i v).length = l.length := by
  simp [addAt]

theorem addAt_getD_self (l : List Vec3) (i : ℕ) (v : Vec3) (h : i < l.length) :
    (addAt l i v).getD i Vec3.zero = (l.getD i Vec3.zero).add v := by
  simp [addAt, List.getD_eq_getElem?_getD, List.getElem?_set_self h]

theorem addAt_getD_ne (l : List Vec3) (i j : ℕ) (v : Vec3) (h : i ≠ j) :
    (addAt l i v).getD j Vec3.zero = l.getD j Vec3.zero := by
  simp [addAt, List.getD_eq_getElem?_getD, List.getElem?_set_ne h]

theorem addAt_take (l : List Vec3) (i j : ℕ) (v : Vec3) (h : j ≤ i) :
    (addAt l i v).take j = l.take j := by
  apply List.ext_getElem?
  intro n
  rw [List.getElem?_take, List.getElem?_take]
  split
  · next h2 => rw [addAt, List.getElem?_set_ne (by omega)]
  · rfl

theorem accumulateNormal_length (norms : List Vec3) (base n1 n2 n3 : ℕ) (fn : Vec3) :
    (accumulateNormal norms base n1 n2 n3 fn).length = norms.length := by
  simp [accumulateNormal, addAt_length]

theorem foldl_triStep_vertices (vs : List Vec3) (base : ℕ) (rev : Bool)
    (ts : List (ℕ × ℕ × ℕ)) (acc : CgMeshData) :
    (ts.foldl (triStep vs base rev) acc).vertices = acc.vertices := by
  induction ts generalizing acc with
  | nil => rfl
  | cons t ts ih => rw [List.foldl_cons, ih]; rfl

theorem foldl_triStep_normals_length (vs : List Vec3) (base : ℕ) (rev : Bool)
    (ts : List (ℕ × ℕ × ℕ)) (acc : CgMeshData) :
    (ts.foldl (triStep vs base rev) acc).normals.length = acc.normals.length := by
  induction ts generalizing acc with
  | nil => rfl
  | cons t ts ih =>
    rw [List.foldl_cons, ih]
    simp [triStep, accumulateNormal_length]

theorem foldl_triStep_indices (vs : List Vec3) (base : ℕ) (rev : Bool)
    (ts : List (ℕ × ℕ × ℕ)) (acc : CgMeshData) :
    (ts.foldl (triStep vs base rev) acc).indices
      = acc.indices ++ (ts.map (fun t => emitTriangle base (swapIfReversed rev t))).flatten := by
  induction ts generalizing acc with
  | nil => simp
  | cons t ts ih =>
    rw [List.foldl_cons, ih]
    simp [triStep]

theorem append_triangulation_vertices (out : CgMeshData) (p : Patch) :
    (append_triangulation out p).vertices = out.vertices ++ p.nodes.map p.loc := by
  rw [append_triangulation, foldl_triStep_vertices]

theorem append_triangulation_normals_length (out : CgMeshData) (p : Patch) :
    (append_triangulation out p).normals.length
      = out.normals.length + p.nodes.length := by
  rw [append_triangulation, foldl_triStep_normals_length]
  simp

theorem append_triangulation_indices (out : CgMeshData) (p : Patch) :
    (append_triangulation out p).indices
      = out.indices
        ++ (p.triangles.map
              (fun t => emitTriangle (u32 out.vertices.length) (swapIfReversed p.reversed t))).flatten := by
  rw [append_triangulation, foldl_triStep_indices]

theorem append_triangulation_vertices_length (out : CgMeshData) (p : Patch) :
    (append_triangulation out p).vertices.length
      = out.vertices.length + p.nodes.length := by
  rw [append_triangulation_vertices]
  simp

theorem append_triangulation_indices_unchanged (out : CgMeshData) (p : Patch)
    (h : p.triangles = []) :
    (append_triangulation out p).indices = out.indices := by
  rw [append_triangulation_indices, h]
  simp

/-- C4: for every patch merged by mesh assembly, with `base` the merged
vertex count before the patch, each source triangle `(n1, n2, n3)` in
1-based local numbering is emitted as the 0-based global triple
`(base+n1-1, base+n2-1, base+n3-1)`, with `n1` and `n2` swapped before
emission exactly when the patch's winding-reversed flag is true (the
spec-level emission rule `specEmitTriangle`); the `uint32_t` cast chain of
the source is exact under the stated no-overflow bounds. -/
theorem c4_triangle_emission (out : CgMeshData) (p : Patch)
    (h1 : ∀ t ∈ p.triangles, 1 ≤ t.1 ∧ 1 ≤ t.2.1 ∧ 1 ≤ t.2.2)
    (hb : ∀ t ∈ p.triangles,
      out.vertices.length + (t.1 - 1) < 4294967296 ∧
      out.vertices.length + (t.2.1 - 1) < 4294967296 ∧
      out.vertices.length + (t.2.2 - 1) < 4294967296)
    (hV : out.vertices.length < 4294967296) :
    (append_triangulation out p).indices
      = out.indices
        ++ (p.triangles.map (specEmitTriangle out.vertices.length p.reversed)).flatten := by
  rw [append_triangulation_indices, u32_eq_of_lt hV]
  congr 2
  apply List.map_congr_left
  intro t ht
  obtain ⟨hb1, hb2, hb3⟩ := hb t ht
  have e1 : u32 (t.1 - 1) = t.1 - 1 := u32_eq_of_lt (by omega)
  have e2 : u32 (t.2.1 - 1) = t.2.1 - 1 := u32_eq_of_lt (by omega)
  have e3 : u32 (t.2.2 - 1) = t.2.2 - 1 := u32_eq_of_lt (by omega)
  cases hrev : p.reversed with
  | false =>
    simp [swapIfReversed, emitTriangle, specEmitTriangle, e1, e2, e3,
      u32_eq_of_lt hb1, u32_eq_of_lt hb2, u32_eq_of_lt hb3]
  | true =>
    simp [swapIfReversed, emitTriangle, specEmitTriangle, e1, e2, e3,
      u32_eq_of_lt hb1, u32_eq_of_lt hb2, u32_eq_of_lt hb3]

/-- C4 witness: the spec's two-patch example.  Patch A (3 vertices, one
triangle, identity transform, not reversed) emits `(0, 1, 2)`; patch B
(the same triangle under a world translation, winding-reversed) is merged
at base 3 and emits `(4, 3, 5)` — the first two entries swapped relative
to A's triple. -/
theorem c4_triangle_emission_witness :
    (∀ t ∈ patchB.triangles, 1 ≤ t.1 ∧ 1 ≤ t.2.1 ∧ 1 ≤ t.2.2) ∧
    (append_triangulation emptyMesh patchA).indices = [0, 1, 2] ∧
    (append_triangulation emptyMesh patchA).vertices.length = 3 ∧
    (append_triangulation (append_triangulation emptyMesh patchA) patchB).vertices.length = 6 ∧
    (append_triangulation (append_triangulation emptyMesh patchA) patchB).indices
      = [0, 1, 2, 4, 3, 5] := by
  have hA : (append_triangulation emptyMesh patchA).vertices.length = 3 := by
    rw [append_triangulation_vertices_length]
    rfl
  have hAi : (append_triangulation emptyMesh patchA).indices = [0, 1, 2] := rfl
  refine ⟨by decide, hAi, hA, ?_, ?_⟩
  · rw [append_triangulation_vertices_length, hA]
    rfl
  · have h := c4_triangle_emission (append_triangulation emptyMesh patchA) patchB
      (by decide)
      (by
        intro t ht
        rw [hA]
        revert t ht
        decide)
      (by rw [hA]; decide)
    rw [hA, hAi] at h
    rw [h]
    rfl

/-- C5 counterexample: a patch with one node and an empty triangle list is
not skipped — `append_triangulation` appends its node to the vertex
buffer unconditionally, so the merged vertex list changes. -/
theorem c5_counterexample :
    zeroTriPatch.triangles = [] ∧
    emptyMesh.vertices = [] ∧
    (append_triangulation emptyMesh zeroTriPatch).vertices ≠ [] := by
  refine ⟨rfl, rfl, ?_⟩
  rw [append_triangulation_vertices]
  simp [zeroTriPatch, emptyMesh]

/-- C5 (amended): only a face with no triangulation at all (`none` in the
face loop) is silently skipped and contributes nothing; a patch with an
empty triangle list still contributes its transformed nodes as vertices
(and zero-filled normal slots), while emitting no indices.  The bound
`3 * (pre-state vertex count + node count) < 2^32` is the regime in which
the source's `uint32_t` buffer subscripts (`vi * 3 + c`,
cam_geometry.cpp:128-130) do not wrap, so the node copy lands exactly in
the appended block as modelled. -/
theorem c5_zero_triangle_patch (out : CgMeshData) (p : Patch)
    (h : p.triangles = [])
    (h3V : 3 * (out.vertices.length + p.nodes.length) < 4294967296) :
    mergeStep out none = out ∧
    (append_triangulation out p).vertices = out.vertices ++ p.nodes.map p.loc ∧
    (append_triangulation out p).indices = out.indices ∧
    (append_triangulation out p).normals
      = out.normals ++ List.replicate p.nodes.length Vec3.zero := by
  refine ⟨rfl, append_triangulation_vertices out p, append_triangulation_indices_unchanged out p h, ?_⟩
  rw [append_triangulation, h]
  rfl

/-- C5 witness: the one-node, zero-triangle patch appended to the empty
buffer. -/
theorem c5_zero_triangle_patch_witness :
    zeroTriPatch.triangles = [] ∧
    3 * (emptyMesh.vertices.length + zeroTriPatch.nodes.length) < 4294967296 ∧
    (mergeStep emptyMesh none = emptyMesh ∧
     (append_triangulation emptyMesh zeroTriPatch).vertices
       = emptyMesh.vertices ++ zeroTriPatch.nodes.map zeroTriPatch.loc ∧
     (append_triangulation emptyMesh zeroTriPatch).indices = emptyMesh.indices ∧
     (append_triangulation emptyMesh zeroTriPatch).normals
       = emptyMesh.normals ++ List.replicate zeroTriPatch.nodes.length Vec3.zero) :=
  ⟨rfl, by decide, c5_zero_triangle_patch emptyMesh zeroTriPatch rfl (by decide)⟩

theorem foldl_triStep_normals_take (vs : List Vec3) (base : ℕ) (rev : Bool)
    (ts : List (ℕ × ℕ × ℕ)) (acc : CgMeshData) (j : ℕ) (hj : j ≤ base) :
    ((ts.foldl (triStep vs base rev) acc).normals).take j = acc.normals.take j := by
  induction ts generalizing acc with
  | nil => rfl
  | cons t ts ih =>
    rw [List.foldl_cons, ih]
    simp only [triStep, accumulateNormal]
    rw [addAt_take _ _ _ _ (by omega), addAt_take _ _ _ _ (by omega),
      addAt_take _ _ _ _ (by omega)]

/-- C10: appending a patch only appends — the pre-state's vertex prefix,
normal-slot prefix, and index prefix are unchanged by
`append_triangulation`; in particular a later patch accumulates normals
only into its own slots at or above its base offset.  The bound
`3 * (pre-state vertex count + node count) < 2^32` together with
`patchNodesOk` (1-based node numbers within the patch's node count) is
the regime in which the source's `uint32_t` buffer subscripts
(`vi * 3 + c` at cam_geometry.cpp:128-130, `(base + uint32(vi-1)) * 3` at
line 162) do not wrap, so no write lands below the patch's base offset as
modelled. -/
theorem c10_append_only_appends (out : CgMeshData) (p : Patch)
    (hlen : out.normals.length = out.vertices.length)
    (h3V : 3 * (out.vertices.length + p.nodes.length) < 4294967296)
    (hp : patchNodesOk p) :
    (append_triangulation out p).vertices.take out.vertices.length = out.vertices ∧
    (append_triangulation out p).normals.take out.vertices.length = out.normals ∧
    (append_triangulation out p).indices.take out.indices.length = out.indices := by
  have hV : out.vertices.length < 4294967296 := by omega
  refine ⟨?_, ?_, ?_⟩
  · rw [append_triangulation_vertices]
    exact List.take_left _ _
  · rw [append_triangulation,
      foldl_triStep_normals_take _ _ _ _ _ _ (le_of_eq (u32_eq_of_lt hV).symm)]
    exact List.take_left' hlen
  · rw [append_triangulation_indices]
    exact List.take_left _ _

/-- C10 witness: a concrete one-vertex pre-state buffer followed by patch
A. -/
theorem c10_append_only_appends_witness :
    ((⟨[Vec3.zero], [Vec3.zero], []⟩ : CgMeshData).normals.length
        = (⟨[Vec3.zero], [Vec3.zero], []⟩ : CgMeshData).vertices.length) ∧
    (3 * ((⟨[Vec3.zero], [Vec3.zero], []⟩ : CgMeshData).vertices.length
        + patchA.nodes.length) < 4294967296) ∧
    patchNodesOk patchA ∧
    (append_triangulation ⟨[Vec3.zero], [Vec3.zero], []⟩ patchA).vertices.take 1
      = [Vec3.zero] ∧
    (append_triangulation ⟨[Vec3.zero], [Vec3.zero], []⟩ patchA).normals.take 1
      = [Vec3.zero] := by
  have hp : patchNodesOk patchA := by
    unfold patchNodesOk
    decide
  have h := c10_append_only_appends ⟨[Vec3.zero], [Vec3.zero], []⟩ patchA rfl
    (by decide) hp
  exact ⟨rfl, by decide, hp, h.1, h.2.1⟩

theorem meshWF_append (out : CgMeshData) (p : Patch) (hwf : meshWF out)
    (hp : patchNodesOk p)
    (hb : out.vertices.length + p.nodes.length < 4294967296) :
    meshWF (append_triangulation out p) := by
  obtain ⟨hlen, hidx⟩ := hwf
  have hV : out.vertices.length < 4294967296 := by omega
  constructor
  · rw [append_triangulation_normals_length, append_triangulation_vertices_length, hlen]
  · intro i hi
    rw [append_triangulation_indices] at hi
    rw [append_triangulation_vertices_length]
    have emit_lt : ∀ n : ℕ, 1 ≤ n → n ≤ p.nodes.length →
        u32 (u32 out.vertices.length + u32 (n - 1))
          < out.vertices.length + p.nodes.length := by
      intro n hn1 hn2
      rw [u32_eq_of_lt hV, u32_eq_of_lt (by omega : n - 1 < 4294967296),
        u32_eq_of_lt (by omega : out.vertices.length + (n - 1) < 4294967296)]
      omega
    rcases List.mem_append.mp hi with h | h
    · exact lt_of_lt_of_le (hidx i h) (Nat.le_add_right _ _)
    · obtain ⟨l, hl, hil⟩ := List.mem_flatten.mp h
      obtain ⟨t, ht, rfl⟩ := List.mem_map.mp hl
      obtain ⟨⟨h11, h12⟩, ⟨h21, h22⟩, ⟨h31, h32⟩⟩ := hp t ht
      cases hrev : p.reversed with
      | false =>
        simp only [swapIfReversed, emitTriangle, hrev, Bool.false_eq_true, if_false,
          List.mem_cons, List.not_mem_nil, or_false] at hil
        rcases hil with rfl | rfl | rfl
        · exact emit_lt t.1 h11 h12
        · exact emit_lt t.2.1 h21 h22
        · exact emit_lt t.2.2 h31 h32
      | true =>
        simp only [swapIfReversed, emitTriangle, hrev, if_true, List.mem_cons,
          List.not_mem_nil, or_false] at hil
        rcases hil with rfl | rfl | rfl
        · exact emit_lt t.2.1 h21 h22
        · exact emit_lt t.1 h11 h12
        · exact emit_lt t.2.2 h31 h32

theorem meshWF_normalize (m : CgMeshData) (h : meshWF m) :
    meshWF (normalize_normals m) := by
  obtain ⟨hlen, hidx⟩ := h
  constructor
  · simp only [normalize_normals, List.length_append, List.length_map,
      List.length_take, List.length_drop]
    omega
  · intro i hi
    exact hidx i hi

theorem meshWF_mergeFoldl (faces : List (Option Patch)) (acc : CgMeshData)
    (hwf : meshWF acc)
    (hp : ∀ p, some p ∈ faces → patchNodesOk p)
    (hb : acc.vertices.length + facesNodeSum faces < 4294967296) :
    meshWF (faces.foldl mergeStep acc) := by
  induction faces generalizing acc with
  | nil => exact hwf
  | cons f fs ih =>
    cases f with
    | none =>
      refine ih acc hwf (fun p hp2 => hp p (List.mem_cons_of_mem _ hp2)) ?_
      simpa [facesNodeSum] using hb
    | some p =>
      have hsum : facesNodeSum (some p :: fs) = p.nodes.length + facesNodeSum fs := by
        simp [facesNodeSum]
      rw [hsum] at hb
      have hwf2 := meshWF_append acc p hwf (hp p (List.mem_cons_self _ _)) (by omega)
      refine ih (append_triangulation acc p) hwf2
        (fun q hq => hp q (List.mem_cons_of_mem _ hq)) ?_
      rw [append_triangulation_vertices_length]
      omega

/-- C9: every mesh buffer produced by mesh assembly has equally long
vertex and normal arrays, and — provided each patch's 1-based triangle
node numbers lie within its node count and the merged vertex total stays
below 2^32 — every emitted index is strictly below the merged vertex
count; both before and after normalization. -/
theorem c9_mesh_buffer_invariant (faces : List (Option Patch))
    (hp : ∀ p, some p ∈ faces → patchNodesOk p)
    (hb : facesNodeSum faces < 4294967296) :
    meshWF (mergeFaces faces) ∧ meshWF (normalize_normals (mergeFaces faces)) := by
  have h0 : meshWF emptyMesh := ⟨rfl, fun i hi => absurd hi (List.not_mem_nil i)⟩
  have h := meshWF_mergeFoldl faces emptyMesh h0 hp (by simpa [emptyMesh] using hb)
  exact ⟨h, meshWF_normalize _ h⟩

/-- C9 witness: the spec's two-patch example merged with one skipped
face. -/
theorem c9_mesh_buffer_invariant_witness :
    (∀ p, some p ∈ [some patchA, none, some patchB] → patchNodesOk p) ∧
    facesNodeSum [some patchA, none, some patchB] < 4294967296 ∧
    meshWF (mergeFaces [some patchA, none, some patchB]) := by
  have hp : ∀ p, some p ∈ [some patchA, none, some patchB] → patchNodesOk p := by
    intro p hmem
    simp only [List.mem_cons, List.not_mem_nil, or_false, reduceCtorEq,
      Option.some.injEq, false_or] at hmem
    rcases hmem with rfl | rfl
    · unfold patchNodesOk
      decide
    · unfold patchNodesOk
      decide
  have hb : facesNodeSum [some patchA, none, some patchB] < 4294967296 := by decide
  exact ⟨hp, hb, (c9_mesh_buffer_invariant _ hp hb).1⟩

theorem Vec3.add_zero' (a : Vec3) : a.add Vec3.zero = a := by
  cases a
  simp [Vec3.add, Vec3.zero]

theorem Vec3.zero_add' (a : Vec3) : Vec3.zero.add a = a := by
  cases a
  simp [Vec3.add, Vec3.zero]

theorem Vec3.add_assoc' (a b c : Vec3) : (a.add b).add c = a.add (b.add c) := by
  cases a
  cases b
  cases c
  simp [Vec3.add, add_assoc]

theorem Vec3.smul_one' (v : Vec3) : Vec3.smul 1 v = v := by
  cases v
  simp [Vec3.smul]

theorem Vec3.smul_zero_left (v : Vec3) : Vec3.smul 0 v = Vec3.zero := by
  cases v
  simp [Vec3.smul, Vec3.zero]

theorem Vec3.smul_zero_right (c : ℝ) : Vec3.smul c Vec3.zero = Vec3.zero := by
  simp [Vec3.smul, Vec3.zero]

theorem vecSum_cons (x : Vec3) (l : List Vec3) : vecSum (x :: l) = x.add (vecSum l) := rfl

theorem vecSum_eq_zero (l : List Vec3) (h : ∀ v ∈ l, v = Vec3.zero) :
    vecSum l = Vec3.zero := by
  induction l with
  | nil => rfl
  | cons x xs ih =>
    rw [vecSum_cons, h x (List.mem_cons_self _ _), ih (fun v hv => h v (List.mem_cons_of_mem _ hv))]
    exact Vec3.zero_add' _

theorem addAt_getD_occ (l : List Vec3) (base n k : ℕ) (fn : Vec3)
    (hn : 1 ≤ n) (hk : 1 ≤ k) (hin : base + (k - 1) < l.length) :
    (addAt l (base + (n - 1)) fn).getD (base + (k - 1)) Vec3.zero
      = (l.getD (base + (k - 1)) Vec3.zero).add
          (Vec3.smul (if n = k then 1 else 0) fn) := by
  by_cases e : n = k
  · subst e
    rw [addAt_getD_self _ _ _ hin, if_pos rfl, Vec3.smul_one']
  · rw [addAt_getD_ne _ _ _ _ (by omega), if_neg e, Vec3.smul_zero_left]
    exact (Vec3.add_zero' _).symm

theorem accumulateNormal_getD_occ (norms : List Vec3) (base n1 n2 n3 k : ℕ) (fn : Vec3)
    (h1 : 1 ≤ n1) (h2 : 1 ≤ n2) (h3 : 1 ≤ n3) (hk : 1 ≤ k)
    (hin : base + (k - 1) < norms.length) :
    (accumulateNormal norms base n1 n2 n3 fn).getD (base + (k - 1)) Vec3.zero
      = (norms.getD (base + (k - 1)) Vec3.zero).add
          (Vec3.smul ((occ k (n1, n2, n3) : ℕ) : ℝ) fn) := by
  rw [accumulateNormal]
  rw [addAt_getD_occ _ _ _ _ _ h3 hk (by simp [addAt_length, hin])]
  rw [addAt_getD_occ _ _ _ _ _ h2 hk (by simp [addAt_length, hin])]
  rw [addAt_getD_occ _ _ _ _ _ h1 hk hin]
  simp only [occ, Vec3.add, Vec3.smul, Vec3.mk.injEq]
  refine ⟨?_, ?_, ?_⟩ <;> (push_cast; split_ifs <;> ring)

theorem foldl_triStep_normals_getD (vs : List Vec3) (base : ℕ) (rev : Bool)
    (ts : List (ℕ × ℕ × ℕ)) (acc : CgMeshData) (k : ℕ) (hk : 1 ≤ k)
    (h1 : ∀ t ∈ ts, 1 ≤ t.1 ∧ 1 ≤ t.2.1 ∧ 1 ≤ t.2.2)
    (hin : base + (k - 1) < acc.normals.length) :
    ((ts.foldl (triStep vs base rev) acc).normals).getD (base + (k - 1)) Vec3.zero
      = (acc.normals.getD (base + (k - 1)) Vec3.zero).add
          (vecSum (ts.map (fun t =>
            let s := swapIfReversed rev t
            Vec3.smul ((occ k s : ℕ) : ℝ) (triFaceNormal vs base s.1 s.2.1 s.2.2)))) := by
  induction ts generalizing acc with
  | nil =>
    simp only [List.foldl_nil, List.map_nil]
    exact (Vec3.add_zero' _).symm
  | cons t ts ih =>
    rw [List.foldl_cons]
    obtain ⟨ht1, ht2, ht3⟩ := h1 t (List.mem_cons_self _ _)
    have hs1 : 1 ≤ (swapIfReversed rev t).1 ∧ 1 ≤ (swapIfReversed rev t).2.1 ∧
        1 ≤ (swapIfReversed rev t).2.2 := by
      cases rev with
      | false => exact ⟨ht1, ht2, ht3⟩
      | true => exact ⟨ht2, ht1, ht3⟩
    rw [ih (triStep vs base rev acc t)
      (fun q hq => h1 q (List.mem_cons_of_mem _ hq))
      (by simpa [triStep, accumulateNormal_length] using hin)]
    have hstep : (triStep vs base rev acc t).normals
        = accumulateNormal acc.normals base (swapIfReversed rev t).1
            (swapIfReversed rev t).2.1 (swapIfReversed rev t).2.2
            (triFaceNormal vs base (swapIfReversed rev t).1
              (swapIfReversed rev t).2.1 (swapIfReversed rev t).2.2) := rfl
    rw [hstep, accumulateNormal_getD_occ _ _ _ _ _ _ _ hs1.1 hs1.2.1 hs1.2.2 hk hin]
    rw [List.map_cons, vecSum_cons, Vec3.add_assoc']

theorem append_triangulation_normals_getD (out : CgMeshData) (p : Patch) (k : ℕ)
    (hlen : out.normals.length = out.vertices.length)
    (hV : out.vertices.length < 4294967296)
    (h1 : ∀ t ∈ p.triangles, 1 ≤ t.1 ∧ 1 ≤ t.2.1 ∧ 1 ≤ t.2.2)
    (hk1 : 1 ≤ k) (hk2 : k ≤ p.nodes.length) :
    (append_triangulation out p).normals.getD (out.vertices.length + (k - 1)) Vec3.zero
      = patchContribution out p k := by
  have hbase : u32 out.vertices.length = out.vertices.length := u32_eq_of_lt hV
  show ((p.triangles.foldl
      (triStep (out.vertices ++ p.nodes.map p.loc) (u32 out.vertices.length) p.reversed)
      { vertices := out.vertices ++ p.nodes.map p.loc
        normals := out.normals ++ List.replicate p.nodes.length Vec3.zero
        indices := out.indices }).normals).getD (out.vertices.length + (k - 1)) Vec3.zero
      = patchContribution out p k
  rw [show out.vertices.length + (k - 1) = u32 out.vertices.length + (k - 1) from by rw [hbase]]
  rw [foldl_triStep_normals_getD _ _ _ _ _ k hk1 h1
    (by rw [hbase]; simp only [List.length_append, List.length_replicate, hlen]; omega)]
  have hinit : ((out.normals ++ List.replicate p.nodes.length Vec3.zero) :
      List Vec3).getD (u32 out.vertices.length + (k - 1)) Vec3.zero = Vec3.zero := by
    rw [hbase, List.getD_append_right _ _ _ _ (by omega : out.normals.length ≤ out.vertices.length + (k - 1))]
    rw [hlen, show out.vertices.length + (k - 1) - out.vertices.length = k - 1 from by omega]
    by_cases hkk : k - 1 < p.nodes.length <;>
      simp [List.getD_eq_getElem?_getD, List.getElem?_replicate, hkk]
  rw [hinit, Vec3.zero_add']
  rfl

theorem normalizeVec_of_le (v : Vec3) (h : v.mag ≤ 1e-12) : normalizeVec v = v := by
  have h2 : ¬ (1e-12 < Real.sqrt (v.x * v.x + v.y * v.y + v.z * v.z)) := not_lt.mpr h
  simp only [normalizeVec, if_neg h2]

theorem mag_zero : Vec3.mag Vec3.zero = 0 := by
  simp [Vec3.mag, Vec3.zero, Real.sqrt_zero]

theorem normalizeVec_zero : normalizeVec Vec3.zero = Vec3.zero := by
  apply normalizeVec_of_le
  rw [mag_zero]
  norm_num

theorem normalizeVec_of_lt (v : Vec3) (h : 1e-12 < v.mag) :
    normalizeVec v = ⟨v.x / v.mag, v.y / v.mag, v.z / v.mag⟩ := by
  have h2 : 1e-12 < Real.sqrt (v.x * v.x + v.y * v.y + v.z * v.z) := h
  simp only [normalizeVec, if_pos h2]
  rfl

theorem normalizeVec_mag_one (v : Vec3) (h : 1e-12 < v.mag) :
    (normalizeVec v).mag = 1 := by
  have hs : (0:ℝ) ≤ v.x * v.x + v.y * v.y + v.z * v.z :=
    add_nonneg (add_nonneg (mul_self_nonneg _) (mul_self_nonneg _)) (mul_self_nonneg _)
  have hpos : 0 < v.mag := lt_trans (by norm_num) h
  have hne : v.mag ≠ 0 := ne_of_gt hpos
  have hsq : v.mag * v.mag = v.x * v.x + v.y * v.y + v.z * v.z :=
    Real.mul_self_sqrt hs
  have hspos : (0:ℝ) < v.x * v.x + v.y * v.y + v.z * v.z := by
    rcases lt_or_eq_of_le hs with h3 | h3
    · exact h3
    · exfalso
      have : v.mag = 0 := by
        rw [Vec3.mag, ← h3, Real.sqrt_zero]
      exact hne this
  rw [normalizeVec_of_lt v h]
  show Real.sqrt (v.x / v.mag * (v.x / v.mag) + v.y / v.mag * (v.y / v.mag)
      + v.z / v.mag * (v.z / v.mag)) = 1
  have hquot : v.x / v.mag * (v.x / v.mag) + v.y / v.mag * (v.y / v.mag)
      + v.z / v.mag * (v.z / v.mag) = 1 := by
    field_simp
    rw [hsq]
  rw [hquot, Real.sqrt_one]

theorem normalize_normals_getD (m : CgMeshData) (i : ℕ)
    (hlen : m.normals.length = m.vertices.length) :
    (normalize_normals m).normals.getD i Vec3.zero
      = normalizeVec (m.normals.getD i Vec3.zero) := by
  simp only [normalize_normals]
  rw [← hlen, List.take_length, List.drop_length, List.append_nil]
  calc (m.normals.map normalizeVec).getD i Vec3.zero
      = (m.normals.map normalizeVec).getD i (normalizeVec Vec3.zero) := by
        rw [normalizeVec_zero]
    _ = normalizeVec (m.normals.getD i Vec3.zero) := List.getD_map _ _ normalizeVec

/-- C6 counterexample: in the mesh assembled from `cancelPatch`, the
vertex of node 1 is touched by the non-degenerate triangle `(1, 2, 3)`
(face normal `(0, 0, 1)`, nonzero), yet its two incident face normals
cancel, so the accumulated magnitude is below the threshold and the final
normal is exactly `(0, 0, 0)` — not unit length. -/
theorem c6_counterexample :
    triFaceNormal (append_triangulation emptyMesh cancelPatch).vertices 0 1 2 3
      = ⟨0, 0, 1⟩ ∧
    (⟨0, 0, 1⟩ : Vec3) ≠ Vec3.zero ∧
    cancelPatch.reversed = false ∧
    (1, 2, 3) ∈ cancelPatch.triangles ∧
    (normalize_normals (append_triangulation emptyMesh cancelPatch)).normals.getD 0
      Vec3.zero = Vec3.zero := by
  have hverts : (append_triangulation emptyMesh cancelPatch).vertices
      = [⟨0, 0, 0⟩, ⟨1, 0, 0⟩, ⟨0, 1, 0⟩] := by
    rw [append_triangulation_vertices]
    rfl
  have hfn : triFaceNormal (append_triangulation emptyMesh cancelPatch).vertices 0 1 2 3
      = ⟨0, 0, 1⟩ := by
    rw [hverts]
    simp only [triFaceNormal, vAt, List.getD, Vec3.sub, Vec3.cross]
    norm_num
  have hlen : (append_triangulation emptyMesh cancelPatch).normals.length
      = (append_triangulation emptyMesh cancelPatch).vertices.length := by
    rw [append_triangulation_normals_length, append_triangulation_vertices_length]
    rfl
  have hacc : (append_triangulation emptyMesh cancelPatch).normals.getD 0 Vec3.zero
      = Vec3.zero := by
    have h := append_triangulation_normals_getD emptyMesh cancelPatch 1
      rfl (by norm_num [emptyMesh]) (by decide) (by norm_num) (by decide)
    rw [show (0:ℕ) = emptyMesh.vertices.length + (1 - 1) from rfl]
    rw [h]
    have hf1 : triFaceNormal [(⟨0, 0, 0⟩ : Vec3), ⟨1, 0, 0⟩, ⟨0, 1, 0⟩] 0 1 2 3
        = ⟨0, 0, 1⟩ := by
      simp only [triFaceNormal, vAt]
      norm_num [List.getD, Vec3.sub, Vec3.cross]
    have hf2 : triFaceNormal [(⟨0, 0, 0⟩ : Vec3), ⟨1, 0, 0⟩, ⟨0, 1, 0⟩] 0 2 1 3
        = ⟨0, 0, -1⟩ := by
      simp only [triFaceNormal, vAt]
      norm_num [List.getD, Vec3.sub, Vec3.cross]
    simp only [patchContribution, emptyMesh, cancelPatch, List.map_cons, List.map_nil,
      List.nil_append, List.length_nil, swapIfReversed, Bool.false_eq_true, if_false,
      show u32 0 = 0 from rfl, vecSum_cons]
    rw [hf1, hf2]
    simp only [occ, Vec3.smul, Vec3.add, Vec3.zero, vecSum]
    norm_num
  refine ⟨hfn, ?_, rfl, by decide, ?_⟩
  · intro hcontra
    have := congrArg Vec3.z hcontra
    simp [Vec3.zero] at this
  · rw [normalize_normals_getD _ _ hlen, hacc, normalizeVec_zero]

/-- C6 (amended): after assembly, the normal slot of node `k` holds the
accumulated sum of the (post-swap) cross-product face normals of the
triangles touching that node, weighted by occurrence; normalization
divides a vector by its magnitude exactly when that magnitude exceeds
`1e-12` (yielding a unit-length normal) and leaves it unchanged otherwise;
hence a vertex all of whose touching triangles have a zero face normal
ends with exactly `(0, 0, 0)`.  (Unlike the original claim, a vertex
touched by non-degenerate triangles is only guaranteed a unit normal when
its accumulated magnitude exceeds the threshold — cancelling face normals
can leave it at `(0, 0, 0)`.)  The bound
`3 * (pre-state vertex count + node count) < 2^32` together with
`patchNodesOk` is the regime in which the source's `uint32_t` buffer
subscripts (in particular the accumulation slot
`(base + uint32(vi-1)) * 3`, cam_geometry.cpp:162) do not wrap, so every
`+=` lands in the modelled slot. -/
theorem c6_vertex_normal_policy (out : CgMeshData) (p : Patch) (k : ℕ)
    (hlen : out.normals.length = out.vertices.length)
    (h3V : 3 * (out.vertices.length + p.nodes.length) < 4294967296)
    (hp : patchNodesOk p)
    (hk1 : 1 ≤ k) (hk2 : k ≤ p.nodes.length) :
    ((append_triangulation out p).normals.getD (out.vertices.length + (k - 1)) Vec3.zero
        = patchContribution out p k) ∧
    ((normalize_normals (append_triangulation out p)).normals.getD
        (out.vertices.length + (k - 1)) Vec3.zero
      = normalizeVec (patchContribution out p k)) ∧
    (∀ v : Vec3, 1e-12 < v.mag →
      normalizeVec v = ⟨v.x / v.mag, v.y / v.mag, v.z / v.mag⟩ ∧ (normalizeVec v).mag = 1) ∧
    (∀ v : Vec3, v.mag ≤ 1e-12 → normalizeVec v = v) ∧
    ((∀ t ∈ p.triangles, occ k (swapIfReversed p.reversed t) ≠ 0 →
        triFaceNormal (out.vertices ++ p.nodes.map p.loc) (u32 out.vertices.length)
          (swapIfReversed p.reversed t).1 (swapIfReversed p.reversed t).2.1
          (swapIfReversed p.reversed t).2.2 = Vec3.zero) →
      (normalize_normals (append_triangulation out p)).normals.getD
        (out.vertices.length + (k - 1)) Vec3.zero = Vec3.zero) := by
  have hV : out.vertices.length < 4294967296 := by omega
  have h1 : ∀ t ∈ p.triangles, 1 ≤ t.1 ∧ 1 ≤ t.2.1 ∧ 1 ≤ t.2.2 :=
    fun t ht => ⟨(hp t ht).1.1, (hp t ht).2.1.1, (hp t ht).2.2.1⟩
  have hacc := append_triangulation_normals_getD out p k hlen hV h1 hk1 hk2
  have hlen2 : (append_triangulation out p).normals.length
      = (append_triangulation out p).vertices.length := by
    rw [append_triangulation_normals_length, append_triangulation_vertices_length, hlen]
  have hnorm := normalize_normals_getD (append_triangulation out p)
    (out.vertices.length + (k - 1)) hlen2
  refine ⟨hacc, by rw [hnorm, hacc], ?_, fun v hv => normalizeVec_of_le v hv, ?_⟩
  · intro v hv
    exact ⟨normalizeVec_of_lt v hv, normalizeVec_mag_one v hv⟩
  · intro htouch
    have hzero : patchContribution out p k = Vec3.zero := by
      simp only [patchContribution]
      apply vecSum_eq_zero
      intro v hv
      obtain ⟨t, ht, rfl⟩ := List.mem_map.mp hv
      show Vec3.smul _ (triFaceNormal (out.vertices ++ p.nodes.map p.loc)
        (u32 out.vertices.length) (swapIfReversed p.reversed t).1
        (swapIfReversed p.reversed t).2.1 (swapIfReversed p.reversed t).2.2) = Vec3.zero
      by_cases hocc : occ k (swapIfReversed p.reversed t) = 0
      · rw [hocc]
        simp only [Nat.cast_zero, Vec3.smul_zero_left]
      · rw [htouch t ht hocc, Vec3.smul_zero_right]
    rw [hnorm, hacc, hzero, normalizeVec_zero]

/-- C6 witness: the patch whose single triangle is degenerate (all three
nodes coincide) — the vertex of node 1 is touched only by a zero-area
triangle, and its final normal is exactly `(0, 0, 0)`. -/
theorem c6_vertex_normal_policy_witness :
    patchNodesOk degeneratePatch ∧
    (3 * (emptyMesh.vertices.length + degeneratePatch.nodes.length) < 4294967296) ∧
    (1 ≤ degeneratePatch.nodes.length) ∧
    (normalize_normals (append_triangulation emptyMesh degeneratePatch)).normals.getD 0
      Vec3.zero = Vec3.zero := by
  have hp : patchNodesOk degeneratePatch := by
    unfold patchNodesOk
    decide
  have h := c6_vertex_normal_policy emptyMesh degeneratePatch 1 rfl
    (by decide) hp (by norm_num) (by decide)
  refine ⟨hp, by decide, by decide, ?_⟩
  rw [show (0:ℕ) = emptyMesh.vertices.length + (1 - 1) from rfl]
  apply h.2.2.2.2
  intro t ht hocc
  have ht2 : t = (1, 1, 1) := by
    simpa [degeneratePatch] using ht
  subst ht2
  simp only [swapIfReversed, degeneratePatch, Bool.false_eq_true, if_false]
  simp only [triFaceNormal, Vec3.sub, Vec3.cross, Vec3.zero]
  norm_num

theorem mapFind_cons {α : Type} (e : ℕ × α) (l : List (ℕ × α)) (j : ℕ) :
    mapFind (e :: l) j = if e.1 = j then some e.2 else mapFind l j := by
  by_cases h : e.1 = j
  · simp [mapFind, h]
  · simp [mapFind, h]

theorem mapFind_emplace_self {α : Type} (l : List (ℕ × α)) (id : ℕ) (x : α)
    (h : mapFind l id = none) : mapFind (mapEmplace l id x) id = some x := by
  rw [mapEmplace, if_neg (by simp [h]), mapFind_cons, if_pos rfl]

theorem mapFind_emplace_preserve {α : Type} (l : List (ℕ × α)) (id j : ℕ) (x y : α)
    (h : mapFind l j = some y) : mapFind (mapEmplace l id x) j = some y := by
  rw [mapEmplace]
  split
  · exact h
  · next hnis =>
    rw [mapFind_cons]
    split
    · next he =>
      subst he
      simp [h] at hnis
    · exact h

theorem mapFind_erase_self {α : Type} (l : List (ℕ × α)) (id : ℕ) :
    mapFind (mapErase l id) id = none := by
  induction l with
  | nil => rfl
  | cons e l ih =>
    rw [mapErase, List.filter_cons]
    by_cases h : e.1 = id
    · simpa [h] using ih
    · rw [if_pos (by simpa using h), mapFind_cons, if_neg h]
      exact ih

theorem mapFind_erase_ne {α : Type} (l : List (ℕ × α)) (id j : ℕ) (h : j ≠ id) :
    mapFind (mapErase l id) j = mapFind l j := by
  induction l with
  | nil => rfl
  | cons e l ih =>
    rw [mapErase, List.filter_cons]
    by_cases he : e.1 = id
    · rw [if_neg (by simpa using he), mapFind_cons, if_neg (by omega)]
      exact ih
    · rw [if_pos (by simpa using he), mapFind_cons, mapFind_cons]
      split
      · rfl
      · exact ih

theorem mapErase_idem {α : Type} (l : List (ℕ × α)) (id : ℕ) :
    mapErase (mapErase l id) id = mapErase l id := by
  rw [mapErase, mapErase, List.filter_filter]
  apply List.filter_congr
  intro e _
  by_cases h : e.1 = id <;> simp [h]

theorem mapFind_mem {α : Type} (l : List (ℕ × α)) (id : ℕ) (y : α)
    (h : mapFind l id = some y) : (id, y) ∈ l := by
  rw [mapFind] at h
  obtain ⟨e, he, he2⟩ := Option.map_eq_some'.mp h
  have hmem := List.mem_of_find?_eq_some he
  have hp : e.1 = id := by simpa using List.find?_some he
  cases e
  cases hp
  cases he2
  exact hmem

theorem mapEmplace_mem {α : Type} (l : List (ℕ × α)) (id : ℕ) (x : α) (e : ℕ × α)
    (h : e ∈ mapEmplace l id x) : e ∈ l ∨ e = (id, x) := by
  rw [mapEmplace] at h
  split at h
  · exact Or.inl h
  · rcases List.mem_cons.mp h with h2 | h2
    · exact Or.inr h2
    · exact Or.inl h2

theorem mapErase_subset {α : Type} (l : List (ℕ × α)) (id : ℕ) (e : ℕ × α)
    (h : e ∈ mapErase l id) : e ∈ l :=
  List.mem_of_mem_filter h

theorem issuedReg_formula {S M : Type} (ops : List (StoreOp S M)) (st : ApiState S M)
    (hb : st.registry.next_id + regStores ops < U64) :
    issuedReg st ops = List.range' st.registry.next_id (regStores ops) := by
  induction ops generalizing st with
  | nil => rfl
  | cons op ops ih =>
    cases op with
    | regStoreShape x =>
      have hmod : (st.registry.next_id + 1) % U64 = st.registry.next_id + 1 :=
        Nat.mod_eq_of_lt (by
          have : regStores (StoreOp.regStoreShape x :: ops) = regStores ops + 1 := rfl
          omega)
      have hnext : ((stepOp st (StoreOp.regStoreShape x)).1).registry.next_id
          = st.registry.next_id + 1 := hmod
      have hstep : issuedReg st (StoreOp.regStoreShape x :: ops)
          = st.registry.next_id :: issuedReg ((stepOp st (StoreOp.regStoreShape x)).1) ops := rfl
      rw [hstep, ih _ (by
        rw [hnext]
        have : regStores (StoreOp.regStoreShape x :: ops) = regStores ops + 1 := rfl
        omega), hnext]
      have : regStores (StoreOp.regStoreShape x :: ops) = regStores ops + 1 := rfl
      rw [this, List.range'_succ]
    | regStoreMesh m =>
      have hmod : (st.registry.next_id + 1) % U64 = st.registry.next_id + 1 :=
        Nat.mod_eq_of_lt (by
          have : regStores (StoreOp.regStoreMesh m :: ops) = regStores ops + 1 := rfl
          omega)
      have hnext : ((stepOp st (StoreOp.regStoreMesh m)).1).registry.next_id
          = st.registry.next_id + 1 := hmod
      have hstep : issuedReg st (StoreOp.regStoreMesh m :: ops)
          = st.registry.next_id :: issuedReg ((stepOp st (StoreOp.regStoreMesh m)).1) ops := rfl
      rw [hstep, ih _ (by
        rw [hnext]
        have : regStores (StoreOp.regStoreMesh m :: ops) = regStores ops + 1 := rfl
        omega), hnext]
      have : regStores (StoreOp.regStoreMesh m :: ops) = regStores ops + 1 := rfl
      rw [this, List.range'_succ]
    | regFreeShape j =>
      have hstep : issuedReg st (StoreOp.regFreeShape j :: ops)
          = issuedReg ((stepOp st (StoreOp.regFreeShape j)).1) ops := rfl
      rw [hstep, ih _ (by exact hb)]
      rfl
    | regFreeMesh j =>
      have hstep : issuedReg st (StoreOp.regFreeMesh j :: ops)
          = issuedReg ((stepOp st (StoreOp.regFreeMesh j)).1) ops := rfl
      rw [hstep, ih _ (by exact hb)]
      rfl
    | bufInsert d =>
      have hstep : issuedReg st (StoreOp.bufInsert d :: ops)
          = issuedReg ((stepOp st (StoreOp.bufInsert d)).1) ops := rfl
      rw [hstep, ih _ (by exact hb)]
      rfl
    | bufErase j =>
      have hstep : issuedReg st (StoreOp.bufErase j :: ops)
          = issuedReg ((stepOp st (StoreOp.bufErase j)).1) ops := rfl
      rw [hstep, ih _ (by exact hb)]
      rfl

theorem issuedBuf_formula {S M : Type} (ops : List (StoreOp S M)) (st : ApiState S M)
    (hb : st.mesh_store.next_id + bufStores ops < U64) :
    issuedBuf st ops = List.range' st.mesh_store.next_id (bufStores ops) := by
  induction ops generalizing st with
  | nil => rfl
  | cons op ops ih =>
    cases op with
    | bufInsert d =>
      have hmod : (st.mesh_store.next_id + 1) % U64 = st.mesh_store.next_id + 1 :=
        Nat.mod_eq_of_lt (by
          have : bufStores (StoreOp.bufInsert d :: ops) = bufStores ops + 1 := rfl
          omega)
      have hnext : ((stepOp st (StoreOp.bufInsert d)).1).mesh_store.next_id
          = st.mesh_store.next_id + 1 := hmod
      have hstep : issuedBuf st (StoreOp.bufInsert d :: ops)
          = st.mesh_store.next_id :: issuedBuf ((stepOp st (StoreOp.bufInsert d)).1) ops := rfl
      rw [hstep, ih _ (by
        rw [hnext]
        have : bufStores (StoreOp.bufInsert d :: ops) = bufStores ops + 1 := rfl
        omega), hnext]
      have : bufStores (StoreOp.bufInsert d :: ops) = bufStores ops + 1 := rfl
      rw [this, List.range'_succ]
    | regStoreShape x =>
      have hstep : issuedBuf st (StoreOp.regStoreShape x :: ops)
          = issuedBuf ((stepOp st (StoreOp.regStoreShape x)).1) ops := rfl
      rw [hstep, ih _ (by exact hb)]
      rfl
    | regStoreMesh m =>
      have hstep : issuedBuf st (StoreOp.regStoreMesh m :: ops)
          = issuedBuf ((stepOp st (StoreOp.regStoreMesh m)).1) ops := rfl
      rw [hstep, ih _ (by exact hb)]
      rfl
    | regFreeShape j =>
      have hstep : issuedBuf st (StoreOp.regFreeShape j :: ops)
          = issuedBuf ((stepOp st (StoreOp.regFreeShape j)).1) ops := rfl
      rw [hstep, ih _ (by exact hb)]
      rfl
    | regFreeMesh j =>
      have hstep : issuedBuf st (StoreOp.regFreeMesh j :: ops)
          = issuedBuf ((stepOp st (StoreOp.regFreeMesh j)).1) ops := rfl
      rw [hstep, ih _ (by exact hb)]
      rfl
    | bufErase j =>
      have hstep : issuedBuf st (StoreOp.bufErase j :: ops)
          = issuedBuf ((stepOp st (StoreOp.bufErase j)).1) ops := rfl
      rw [hstep, ih _ (by exact hb)]
      rfl

/-- C1 counterexample: starting from the initial process state, storing
one shape in the handle registry and one mesh buffer through the C-API
mesh store issues the SAME ID (1) for both — the registry counter and
`g_mesh_next_id` are separate counters both starting at 1, so a shape ID
can coincide with a C-API mesh ID. -/
theorem c1_counterexample :
    issuedReg (ApiState.init Unit Unit)
      [StoreOp.regStoreShape (), StoreOp.bufInsert emptyMesh] = [1] ∧
    issuedBuf (ApiState.init Unit Unit)
      [StoreOp.regStoreShape (), StoreOp.bufInsert emptyMesh] = [1] :=
  ⟨rfl, rfl⟩

/-- C1 (amended): within EACH ID-issuing store separately — the handle
registry (shapes and meshes drawing from the single shared counter) and
the C-API mesh-buffer store (its own counter) — the IDs issued over any
sequence of store and free operations are exactly `1, 2, 3, ...` in store
order, hence pairwise distinct, never 0, and never reused even after
frees, provided each counter issues fewer than 2^64 IDs; but the two
stores use separate counters, so a registry-issued (shape) ID can coincide
with a C-API mesh-buffer ID. -/
theorem c1_ids_unique_per_store (S M : Type) (ops : List (StoreOp S M))
    (hreg : 1 + regStores ops < U64) (hbuf : 1 + bufStores ops < U64) :
    issuedReg (ApiState.init S M) ops = List.range' 1 (regStores ops) ∧
    issuedBuf (ApiState.init S M) ops = List.range' 1 (bufStores ops) ∧
    (issuedReg (ApiState.init S M) ops).Nodup ∧
    (issuedBuf (ApiState.init S M) ops).Nodup ∧
    (∀ id ∈ issuedReg (ApiState.init S M) ops, id ≠ 0) ∧
    (∀ id ∈ issuedBuf (ApiState.init S M) ops, id ≠ 0) := by
  have hr := issuedReg_formula ops (ApiState.init S M) (by simpa [ApiState.init, HandleRegistryBase.init] using hreg)
  have hbf := issuedBuf_formula ops (ApiState.init S M) (by simpa [ApiState.init, MeshStoreState.init] using hbuf)
  have hr1 : issuedReg (ApiState.init S M) ops = List.range' 1 (regStores ops) := hr
  have hb1 : issuedBuf (ApiState.init S M) ops = List.range' 1 (bufStores ops) := hbf
  refine ⟨hr1, hb1, ?_, ?_, ?_, ?_⟩
  · rw [hr1]
    exact List.nodup_range' _ _
  · rw [hb1]
    exact List.nodup_range' _ _
  · intro id hid
    rw [hr1, List.mem_range'_1] at hid
    omega
  · intro id hid
    rw [hb1, List.mem_range'_1] at hid
    omega

/-- C1 witness: a concrete interleaved trace — shape store, mesh store,
a free, another shape store — issues registry IDs `[1, 2, 3]`. -/
theorem c1_ids_unique_per_store_witness :
    (1 + regStores [StoreOp.regStoreShape (), StoreOp.regStoreMesh (),
        StoreOp.regFreeShape 1, StoreOp.regStoreShape ()] < U64) ∧
    (1 + bufStores [StoreOp.regStoreShape (), StoreOp.regStoreMesh (),
        StoreOp.regFreeShape 1, StoreOp.regStoreShape ()] < U64) ∧
    issuedReg (ApiState.init Unit Unit)
      [StoreOp.regStoreShape (), StoreOp.regStoreMesh (),
        StoreOp.regFreeShape 1, StoreOp.regStoreShape ()] = [1, 2, 3] ∧
    (issuedReg (ApiState.init Unit Unit)
      [StoreOp.regStoreShape (), StoreOp.regStoreMesh (),
        StoreOp.regFreeShape 1, StoreOp.regStoreShape ()]).Nodup := by
  have h := c1_ids_unique_per_store Unit Unit
    [StoreOp.regStoreShape (), StoreOp.regStoreMesh (),
      StoreOp.regFreeShape 1, StoreOp.regStoreShape ()]
    (by decide) (by decide)
  exact ⟨by decide, by decide, by rw [h.1]; rfl, h.2.2.1⟩

theorem runOps_shapes_find {S M : Type} (ops : List (StoreOp S M)) (st : ApiState S M)
    (id : ℕ) (x : S)
    (hfind : mapFind st.registry.shapes id = some x)
    (hops : ∀ op ∈ ops, op ≠ StoreOp.regFreeShape id) :
    mapFind (runOps st ops).registry.shapes id = some x := by
  induction ops generalizing st with
  | nil => exact hfind
  | cons op ops ih =>
    have hrun : runOps st (op :: ops) = runOps (stepOp st op).1 ops := rfl
    rw [hrun]
    refine ih _ ?_ (fun q hq => hops q (List.mem_cons_of_mem _ hq))
    cases op with
    | regStoreShape y => exact mapFind_emplace_preserve _ _ _ _ _ hfind
    | regStoreMesh m => exact hfind
    | regFreeShape j =>
      have hne : id ≠ j := by
        intro hji
        exact (hops _ (List.mem_cons_self _ _)) (by rw [hji])
      rw [show (stepOp st (StoreOp.regFreeShape j)).1.registry.shapes
          = mapErase st.registry.shapes j from rfl]
      rw [mapFind_erase_ne _ _ _ hne]
      exact hfind
    | regFreeMesh j => exact hfind
    | bufInsert d => exact hfind
    | bufErase j => exact hfind

theorem runOps_meshes_find {S M : Type} (ops : List (StoreOp S M)) (st : ApiState S M)
    (id : ℕ) (y : M)
    (hfind : mapFind st.registry.meshes id = some y)
    (hops : ∀ op ∈ ops, op ≠ StoreOp.regFreeMesh id) :
    mapFind (runOps st ops).registry.meshes id = some y := by
  induction ops generalizing st with
  | nil => exact hfind
  | cons op ops ih =>
    have hrun : runOps st (op :: ops) = runOps (stepOp st op).1 ops := rfl
    rw [hrun]
    refine ih _ ?_ (fun q hq => hops q (List.mem_cons_of_mem _ hq))
    cases op with
    | regStoreShape y2 => exact hfind
    | regStoreMesh m => exact mapFind_emplace_preserve _ _ _ _ _ hfind
    | regFreeShape j => exact hfind
    | regFreeMesh j =>
      have hne : id ≠ j := by
        intro hji
        exact (hops _ (List.mem_cons_self _ _)) (by rw [hji])
      rw [show (stepOp st (StoreOp.regFreeMesh j)).1.registry.meshes
          = mapErase st.registry.meshes j from rfl]
      rw [mapFind_erase_ne _ _ _ hne]
      exact hfind
    | bufInsert d => exact hfind
    | bufErase j => exact hfind

theorem double_free_shape {S M : Type} (r : HandleRegistryBase S M) (id : ℕ) :
    ((r.free_shape id).1).free_shape id = ((r.free_shape id).1, false) := by
  simp [HandleRegistryBase.free_shape, mapErase_idem, mapFind_erase_self]

theorem double_free_mesh {S M : Type} (r : HandleRegistryBase S M) (id : ℕ) :
    ((r.free_mesh id).1).free_mesh id = ((r.free_mesh id).1, false) := by
  simp [HandleRegistryBase.free_mesh, mapErase_idem, mapFind_erase_self]

/-- C2: after `store` yields `id`, `get id` returns the stored object
after any further sequence of operations not containing `free id`; the
first `free id` then reports removal (`true`) and `get id` fails with
NotFound (the modelled `std::out_of_range`); an immediate second
`free id` returns `false` and leaves the registry unchanged; and the
C-API frees accept the null ID 0 as a no-op, leaving the state untouched.
Shown for both the shape kind and the mesh kind of the registry.  (The
freshness hypotheses hold in every reachable state: by C1's counter
formula every stored key is below `next_id`.) -/
theorem c2_store_get_free_lifecycle {S M : Type} (st : ApiState S M) (x : S) (y : M)
    (ops ops2 : List (StoreOp S M))
    (hfreshS : st.registry.get_shape st.registry.next_id = none)
    (hopsS : ∀ op ∈ ops, op ≠ StoreOp.regFreeShape st.registry.next_id)
    (hfreshM : st.registry.get_mesh st.registry.next_id = none)
    (hopsM : ∀ op ∈ ops2, op ≠ StoreOp.regFreeMesh st.registry.next_id) :
    (st.registry.store_shape x).1 = st.registry.next_id ∧
    (runOps { st with registry := (st.registry.store_shape x).2 } ops).registry.get_shape
        st.registry.next_id = some x ∧
    ((runOps { st with registry := (st.registry.store_shape x).2 } ops).registry.free_shape
        st.registry.next_id).2 = true ∧
    (((runOps { st with registry := (st.registry.store_shape x).2 } ops).registry.free_shape
        st.registry.next_id).1).get_shape st.registry.next_id = none ∧
    (((runOps { st with registry := (st.registry.store_shape x).2 } ops).registry.free_shape
        st.registry.next_id).1).free_shape st.registry.next_id
      = ((((runOps { st with registry := (st.registry.store_shape x).2 } ops).registry.free_shape
          st.registry.next_id).1), false) ∧
    (st.registry.store_mesh y).1 = st.registry.next_id ∧
    (runOps { st with registry := (st.registry.store_mesh y).2 } ops2).registry.get_mesh
        st.registry.next_id = some y ∧
    ((runOps { st with registry := (st.registry.store_mesh y).2 } ops2).registry.free_mesh
        st.registry.next_id).2 = true ∧
    (((runOps { st with registry := (st.registry.store_mesh y).2 } ops2).registry.free_mesh
        st.registry.next_id).1).get_mesh st.registry.next_id = none ∧
    (((runOps { st with registry := (st.registry.store_mesh y).2 } ops2).registry.free_mesh
        st.registry.next_id).1).free_mesh st.registry.next_id
      = ((((runOps { st with registry := (st.registry.store_mesh y).2 } ops2).registry.free_mesh
          st.registry.next_id).1), false) ∧
    cg_shape_free 0 st = st ∧
    cg_mesh_free 0 st = st := by
  have hS : mapFind (runOps { st with registry := (st.registry.store_shape x).2 } ops).registry.shapes
      st.registry.next_id = some x := by
    apply runOps_shapes_find _ _ _ _ _ hopsS
    exact mapFind_emplace_self _ _ _ hfreshS
  have hM : mapFind (runOps { st with registry := (st.registry.store_mesh y).2 } ops2).registry.meshes
      st.registry.next_id = some y := by
    apply runOps_meshes_find _ _ _ _ _ hopsM
    exact mapFind_emplace_self _ _ _ hfreshM
  refine ⟨rfl, hS, ?_, ?_, double_free_shape _ _, rfl, hM, ?_, ?_, double_free_mesh _ _, rfl, rfl⟩
  · show (mapFind (runOps { st with registry := (st.registry.store_shape x).2 } ops).registry.shapes
      st.registry.next_id).isSome = true
    rw [hS]
    rfl
  · exact mapFind_erase_self _ _
  · show (mapFind (runOps { st with registry := (st.registry.store_mesh y).2 } ops2).registry.meshes
      st.registry.next_id).isSome = true
    rw [hM]
    rfl
  · exact mapFind_erase_self _ _

/-- C2 witness: store the shape `42` (ID 1) in the fresh registry, run an
interleaved mesh store, and check the full get/free/double-free
lifecycle. -/
theorem c2_store_get_free_lifecycle_witness :
    ((ApiState.init ℕ ℕ).registry.get_shape 1 = none) ∧
    ((ApiState.init ℕ ℕ).registry.get_mesh 1 = none) ∧
    (runOps { ApiState.init ℕ ℕ with
        registry := ((ApiState.init ℕ ℕ).registry.store_shape 42).2 }
      [StoreOp.regStoreMesh 5]).registry.get_shape 1 = some 42 ∧
    ((runOps { ApiState.init ℕ ℕ with
        registry := ((ApiState.init ℕ ℕ).registry.store_shape 42).2 }
      [StoreOp.regStoreMesh 5]).registry.free_shape 1).2 = true ∧
    (((runOps { ApiState.init ℕ ℕ with
        registry := ((ApiState.init ℕ ℕ).registry.store_shape 42).2 }
      [StoreOp.regStoreMesh 5]).registry.free_shape 1).1).get_shape 1 = none ∧
    cg_shape_free 0 (ApiState.init ℕ ℕ) = ApiState.init ℕ ℕ := by
  have h := c2_store_get_free_lifecycle (ApiState.init ℕ ℕ) 42 7
    [StoreOp.regStoreMesh 5] [] rfl
    (by
      intro op hop
      have : op = StoreOp.regStoreMesh 5 := by simpa using hop
      subst this
      simp)
    rfl
    (by intro op hop; cases hop)
  exact ⟨rfl, rfl, h.2.1, h.2.2.1, h.2.2.2.1, h.2.2.2.2.2.2.2.2.2.2.1⟩

/-- C3 counterexample: on a fresh thread (empty last-error), the count
queries given the null handle 0 return their sentinel 0 but do NOT set the
thread-local last-error message — the state, including the empty error
string, is returned untouched, contradicting the claim for these two
boundary operations. -/
theorem c3_counterexample :
    (cg_mesh_vertex_count 0 (ApiState.init Unit Unit)).1 = 0 ∧
    (cg_mesh_vertex_count 0 (ApiState.init Unit Unit)).2 = ApiState.init Unit Unit ∧
    (cg_mesh_vertex_count 0 (ApiState.init Unit Unit)).2.last_error = "" ∧
    (cg_mesh_triangle_count 0 (ApiState.init Unit Unit)).2 = ApiState.init Unit Unit ∧
    (cg_mesh_triangle_count 0 (ApiState.init Unit Unit)).2.last_error = "" :=
  ⟨rfl, rfl, rfl, rfl, rfl⟩

/-- C3 (amended): every modelled boundary operation given a null handle
(ID 0) or null pointer returns its documented sentinel with no registry,
mesh-store, or collaborator interaction — the only state change, where
there is one, is the thread-local error message; the handle-returning and
status-returning operations set a specific message, but the two mesh count
queries (and the void free operations) return without setting any
message. -/
theorem c3_null_input_policy {S M : Type} (st : ApiState S M) (envS : StepOutcome S)
    (envL : StlOutcome) (envB : BboxOutcome) (envT : TessEnv) (i : ℕ)
    (dv dn : Option (List ℝ)) (di : Option (List ℕ)) :
    cg_load_step none envS st = (0, setLastError "cg_load_step: null path" st) ∧
    cg_load_stl none envL st = (0, setLastError "cg_load_stl: null path" st) ∧
    cg_shape_free 0 st = st ∧
    cg_mesh_free 0 st = st ∧
    cg_shape_bounding_box 0 envB st
      = (zeroBbox, setLastError "cg_shape_bounding_box: null handle" st) ∧
    cg_shape_tessellate 0 envT st
      = (0, setLastError "cg_shape_tessellate: null handle" st) ∧
    cg_mesh_vertex_count 0 st = (0, st) ∧
    cg_mesh_triangle_count 0 st = (0, st) ∧
    cg_mesh_copy_vertices 0 dv st
      = (CgError.CG_ERR_NULL_HANDLE, dv, setLastError "cg_mesh_copy_vertices: null argument" st) ∧
    cg_mesh_copy_normals 0 dn st
      = (CgError.CG_ERR_NULL_HANDLE, dn, setLastError "cg_mesh_copy_normals: null argument" st) ∧
    cg_mesh_copy_indices 0 di st
      = (CgError.CG_ERR_NULL_HANDLE, di, setLastError "cg_mesh_copy_indices: null argument" st) ∧
    cg_mesh_copy_vertices i none st
      = (CgError.CG_ERR_NULL_HANDLE, none, setLastError "cg_mesh_copy_vertices: null argument" st) ∧
    cg_mesh_copy_normals i none st
      = (CgError.CG_ERR_NULL_HANDLE, none, setLastError "cg_mesh_copy_normals: null argument" st) ∧
    cg_mesh_copy_indices i none st
      = (CgError.CG_ERR_NULL_HANDLE, none, setLastError "cg_mesh_copy_indices: null argument" st) := by
  refine ⟨rfl, rfl, rfl, rfl, rfl, rfl, rfl, rfl, rfl, rfl, rfl, ?_, ?_, ?_⟩
  · simp [cg_mesh_copy_vertices]
  · simp [cg_mesh_copy_normals]
  · simp [cg_mesh_copy_indices]

/-- C7: `cg_shape_tessellate` returns the sentinel 0 together with a
specific (non-empty) last-error message in exactly its failure cases —
null handle, unknown shape ID, incomplete mesher, and an empty merge
result — in each leaving the mesh store untouched; when all checks pass
and the merge is non-empty, it stores the normalized merged buffer under a
fresh nonzero ID and returns that ID, writing no error. -/
theorem c7_tessellate_sentinel {S M : Type} (st : ApiState S M) (id : ℕ) (env : TessEnv)
    (hnz : 1 ≤ st.mesh_store.next_id)
    (hfresh : st.mesh_store.get st.mesh_store.next_id = none) :
    (id = 0 →
      cg_shape_tessellate id env st
          = (0, setLastError "cg_shape_tessellate: null handle" st) ∧
      (cg_shape_tessellate id env st).2.last_error ≠ "" ∧
      (cg_shape_tessellate id env st).2.mesh_store = st.mesh_store) ∧
    (id ≠ 0 → st.registry.get_shape id = none →
      cg_shape_tessellate id env st
          = (0, setLastError "cg_shape_tessellate: invalid shape ID" st) ∧
      (cg_shape_tessellate id env st).2.mesh_store = st.mesh_store) ∧
    (id ≠ 0 → ∀ s, st.registry.get_shape id = some s → env.mesher_done = false →
      cg_shape_tessellate id env st
          = (0, setLastError "cg_shape_tessellate: mesher did not complete" st)) ∧
    (id ≠ 0 → ∀ s, st.registry.get_shape id = some s → env.mesher_done = true →
      (mergeFaces env.faces).indices = [] →
      cg_shape_tessellate id env st
          = (0, setLastError "cg_shape_tessellate: no triangles produced" st) ∧
      (cg_shape_tessellate id env st).2.mesh_store = st.mesh_store) ∧
    (id ≠ 0 → ∀ s, st.registry.get_shape id = some s → env.mesher_done = true →
      (mergeFaces env.faces).indices ≠ [] →
      (cg_shape_tessellate id env st).1 = st.mesh_store.next_id ∧
      (cg_shape_tessellate id env st).1 ≠ 0 ∧
      (cg_shape_tessellate id env st).2.last_error = st.last_error ∧
      (cg_shape_tessellate id env st).2.mesh_store.get st.mesh_store.next_id
        = some (normalize_normals (mergeFaces env.faces))) := by
  refine ⟨?_, ?_, ?_, ?_, ?_⟩
  · intro h
    subst h
    refine ⟨rfl, ?_, rfl⟩
    have hmsg : (cg_shape_tessellate 0 env st).2.last_error
        = "cg_shape_tessellate: null handle" := rfl
    rw [hmsg]
    decide
  · intro h hnone
    have he : cg_shape_tessellate id env st
        = (0, setLastError "cg_shape_tessellate: invalid shape ID" st) := by
      simp [cg_shape_tessellate, h, hnone]
    exact ⟨he, by rw [he]; rfl⟩
  · intro h s hs hm
    simp [cg_shape_tessellate, h, hs, hm]
  · intro h s hs hm hempty
    have hie : (mergeFaces env.faces).indices.isEmpty = true := by
      rw [hempty]
      rfl
    have he : cg_shape_tessellate id env st
        = (0, setLastError "cg_shape_tessellate: no triangles produced" st) := by
      simp [cg_shape_tessellate, h, hs, hm, hie]
    exact ⟨he, by rw [he]; rfl⟩
  · intro h s hs hm hne
    have hie : (mergeFaces env.faces).indices.isEmpty = false := by
      cases h2 : (mergeFaces env.faces).indices with
      | nil => exact absurd h2 hne
      | cons a l => rfl
    have he : cg_shape_tessellate id env st
        = ((st.mesh_store.insert (normalize_normals (mergeFaces env.faces))).1,
            { st with
              mesh_store := (st.mesh_store.insert (normalize_normals (mergeFaces env.faces))).2 }) := by
      simp [cg_shape_tessellate, h, hs, hm, hie]
    rw [he]
    refine ⟨rfl, by show st.mesh_store.next_id ≠ 0; omega, rfl, ?_⟩
    exact mapFind_emplace_self _ _ _ hfresh

/-- C7 witness: `tessellate(0, ...)` on the fresh process state returns 0,
sets a non-empty message, and stores nothing. -/
theorem c7_tessellate_sentinel_witness :
    (1 ≤ (ApiState.init Unit Unit).mesh_store.next_id) ∧
    ((ApiState.init Unit Unit).mesh_store.get 1 = none) ∧
    cg_shape_tessellate 0 ⟨true, []⟩ (ApiState.init Unit Unit)
      = (0, setLastError "cg_shape_tessellate: null handle" (ApiState.init Unit Unit)) ∧
    (cg_shape_tessellate 0 ⟨true, []⟩ (ApiState.init Unit Unit)).2.last_error ≠ "" ∧
    (cg_shape_tessellate 0 ⟨true, []⟩ (ApiState.init Unit Unit)).2.mesh_store
      = (ApiState.init Unit Unit).mesh_store := by
  have h := c7_tessellate_sentinel (ApiState.init Unit Unit) 0 ⟨true, []⟩ (by decide) rfl
  obtain ⟨h1, h2, h3⟩ := h.1 rfl
  exact ⟨by decide, rfl, h1, h2, h3⟩

theorem memcpyList_full {α : Type} (dst src : List α) (h : dst.length = src.length) :
    memcpyList dst src = src := by
  rw [memcpyList, ← h, List.drop_length, List.append_nil]

/-- C8: the three mesh copy operations return the null-handle status and
leave the destination buffer completely untouched when given a null
destination pointer, the null handle 0, or an absent mesh ID; for a live
mesh ID and a destination pre-allocated to the stored buffer's size they
return `CG_OK` and the destination holds exactly the stored buffer
contents. -/
theorem c8_copy_ops (S M : Type) (st : ApiState S M) (id : ℕ)
    (bv bn : List ℝ) (bi : List ℕ) (m : CgMeshData) :
    (cg_mesh_copy_vertices id none st
        = (CgError.CG_ERR_NULL_HANDLE, none,
            setLastError "cg_mesh_copy_vertices: null argument" st)) ∧
    (cg_mesh_copy_normals id none st
        = (CgError.CG_ERR_NULL_HANDLE, none,
            setLastError "cg_mesh_copy_normals: null argument" st)) ∧
    (cg_mesh_copy_indices id none st
        = (CgError.CG_ERR_NULL_HANDLE, none,
            setLastError "cg_mesh_copy_indices: null argument" st)) ∧
    (cg_mesh_copy_vertices 0 (some bv) st
        = (CgError.CG_ERR_NULL_HANDLE, some bv,
            setLastError "cg_mesh_copy_vertices: null argument" st)) ∧
    (cg_mesh_copy_normals 0 (some bn) st
        = (CgError.CG_ERR_NULL_HANDLE, some bn,
            setLastError "cg_mesh_copy_normals: null argument" st)) ∧
    (cg_mesh_copy_indices 0 (some bi) st
        = (CgError.CG_ERR_NULL_HANDLE, some bi,
            setLastError "cg_mesh_copy_indices: null argument" st)) ∧
    (id ≠ 0 → st.mesh_store.get id = none →
      cg_mesh_copy_vertices id (some bv) st
          = (CgError.CG_ERR_NULL_HANDLE, some bv,
              setLastError "cg_mesh_copy_vertices: invalid mesh ID" st) ∧
      cg_mesh_copy_normals id (some bn) st
          = (CgError.CG_ERR_NULL_HANDLE, some bn,
              setLastError "cg_mesh_copy_normals: invalid mesh ID" st) ∧
      cg_mesh_copy_indices id (some bi) st
          = (CgError.CG_ERR_NULL_HANDLE, some bi,
              setLastError "cg_mesh_copy_indices: invalid mesh ID" st)) ∧
    (id ≠ 0 → st.mesh_store.get id = some m →
      (bv.length = (flat3 m.vertices).length →
        cg_mesh_copy_vertices id (some bv) st = (CgError.CG_OK, some (flat3 m.vertices), st)) ∧
      (bn.length = (flat3 m.normals).length →
        cg_mesh_copy_normals id (some bn) st = (CgError.CG_OK, some (flat3 m.normals), st)) ∧
      (bi.length = m.indices.length →
        cg_mesh_copy_indices id (some bi) st = (CgError.CG_OK, some m.indices, st))) := by
  refine ⟨by simp [cg_mesh_copy_vertices], by simp [cg_mesh_copy_normals],
    by simp [cg_mesh_copy_indices], rfl, rfl, rfl, ?_, ?_⟩
  · intro h hnone
    refine ⟨?_, ?_, ?_⟩
    · simp [cg_mesh_copy_vertices, h, hnone]
    · simp [cg_mesh_copy_normals, h, hnone]
    · simp [cg_mesh_copy_indices, h, hnone]
  · intro h hsome
    refine ⟨?_, ?_, ?_⟩
    · intro hl
      simp [cg_mesh_copy_vertices, h, hsome, memcpyList_full _ _ hl]
    · intro hl
      simp [cg_mesh_copy_normals, h, hsome, memcpyList_full _ _ hl]
    · intro hl
      simp [cg_mesh_copy_indices, h, hsome, memcpyList_full _ _ hl]

/-- C8 witness: copying out of the stored `demoMesh` (ID 1) succeeds into
an exactly sized buffer and fails with the null-handle status — buffer
untouched — on a null destination. -/
theorem c8_copy_ops_witness :
    (demoState.mesh_store.get 1 = some demoMesh) ∧
    ((1:ℕ) ≠ 0) ∧
    ([(0:ℝ), 0, 0].length = (flat3 demoMesh.vertices).length) ∧
    cg_mesh_copy_vertices 1 (some [(0:ℝ), 0, 0]) demoState
      = (CgError.CG_OK, some (flat3 demoMesh.vertices), demoState) ∧
    cg_mesh_copy_vertices 1 none demoState
      = (CgError.CG_ERR_NULL_HANDLE, none,
          setLastError "cg_mesh_copy_vertices: null argument" demoState) := by
  have h := c8_copy_ops Unit Unit demoState 1 [0, 0, 0] [0, 0, 0] [0, 0, 0] demoMesh
  refine ⟨rfl, by decide, rfl, ?_, h.1⟩
  exact ((h.2.2.2.2.2.2.2 (by decide) rfl).1 rfl)

end JamieCam
